import Mathlib

/-!
Verification development for the Nuki guest-code scheduler (`main.py`).

Shallow embedding conventions:
* A calendar date is an `Int` day number (day 0 is 2000-03-01; comparisons and
  day arithmetic are exactly the comparisons/`timedelta` arithmetic on
  `datetime.date` values).
* A naive local wall-clock datetime is an `Int`, seconds of local wall time
  (`day * 86400 + secondsOfDay`); Python compares two aware datetimes carrying
  the same `tzinfo` by their naive wall clocks, and `timedelta(days=1)` adds
  86400 wall seconds, so this is faithful.
* The time zone is embedded as a function `tzOffset : Int -> Int` giving the
  zone's UTC offset (seconds) at a local wall instant; `astimezone(utc)`
  followed by `replace(tzinfo=None)` is `wall - tzOffset wall`.
* The spreadsheet (after `load_bookings` filtering) is a `List Booking` in row
  order; `pandas` row iteration and stable `sort_values` are modelled on lists.
* The lock backend's authorization list is a `List AuthEntry` whose window
  bounds are the raw strings of `allowedFromDate` / `allowedUntilDate`
  (`Option String`); write calls are recorded in a trace and applied to the
  list so that a second run reads back the first run's writes.
* Fallible stretches of `run_once`'s per-unit body are embedded with explicit
  error propagation; the `try/except` of `run_once` is `processUnit`'s final
  error outcome.
-/

namespace Nuki

/-- Global configuration read from the environment at startup:
`CHECKIN_TIME` / `CHECKOUT_TIME` as seconds after local midnight, and the
zone's offset function (model of `ZoneInfo(TZ)`). -/
structure GCfg where
  checkinSec : Int
  checkoutSec : Int
  tzOffset : Int → Int

/-- A cleaned spreadsheet row after `load_bookings`: arrival/departure dates. -/
structure Booking where
  arrival : Int
  departure : Int
deriving DecidableEq

/-- `dt.datetime(day, h, m)` as local wall seconds. -/
def localDT (day tod : Int) : Int := day * 86400 + tod

/-- `x.astimezone(dt.timezone.utc).replace(tzinfo=None)` on a local wall instant. -/
def toUTC (g : GCfg) (wall : Int) : Int := wall - g.tzOffset wall

/-- The per-row test of `next_stay_interval_today`:
`a <= today < d or a == today`. -/
def stayMatches (today : Int) (b : Booking) : Bool :=
  (decide (b.arrival ≤ today) && decide (today < b.departure)) || (b.arrival == today)

/-- The window construction shared by `next_stay_interval_today` and
`next_future_interval` (main.py lines 255-261 / 270-275): local start at
check-in on the arrival day, local end at check-out on the departure day,
one day added to the end iff `end_local <= start_local`, both converted to
naive UTC. -/
def mkWindow (g : GCfg) (a d : Int) : Int × Int :=
  let startLocal := localDT a g.checkinSec
  let endLocal := localDT d g.checkoutSec
  let endLocal2 := if endLocal ≤ startLocal then endLocal + 86400 else endLocal
  (toUTC g startLocal, toUTC g endLocal2)

/-- `next_stay_interval_today` (main.py 245-262): the window of the first row
(in spreadsheet order) whose stay covers today or whose arrival is today. -/
def next_stay_interval_today (g : GCfg) (df : List Booking) (today : Int) :
    Option (Int × Int) :=
  (df.find? (stayMatches today)).map (fun b => mkWindow g b.arrival b.departure)

/-- The element a stable sort by `arrival` followed by `head(1)` selects from a
nonempty list: the first element attaining the minimal arrival. -/
def minArrivalFirst (b : Booking) (rest : List Booking) : Booking :=
  rest.foldl (fun best x => if x.arrival < best.arrival then x else best) b

/-- `next_future_interval` (main.py 264-275): among rows with `arrival > today`
(stable-sorted by arrival), the window of the first; `None` if there are none. -/
def next_future_interval (g : GCfg) (df : List Booking) (today : Int) :
    Option (Int × Int) :=
  match df.filter (fun b => decide (today < b.arrival)) with
  | [] => none
  | b :: rest =>
      some (mkWindow g (minArrivalFirst b rest).arrival (minArrivalFirst b rest).departure)

/-- The composite resolver implemented by `run_once`'s branch structure
(main.py 394, 401, 438): the today-stay window if any, else the next future
window, else none. -/
def resolve_window (g : GCfg) (df : List Booking) (today : Int) : Option (Int × Int) :=
  match next_stay_interval_today g df today with
  | some iv => some iv
  | none => next_future_interval g df today

/-- `is_turnover_today` (main.py 240-243). -/
def is_turnover_today (df : List Booking) (today : Int) : Bool :=
  (df.any fun r => r.departure == today) && (df.any fun r => r.arrival == today)

/-- Modelled from the spec: the candidate set of section 4.1 step 1 — bookings
that are current (`arrival <= today < departure`) or future (`arrival >= today`). -/
def specCandidates (df : List Booking) (today : Int) : List Booking :=
  df.filter fun b =>
    (decide (b.arrival ≤ today) && decide (today < b.departure)) || decide (today ≤ b.arrival)

/-- Modelled from the spec: the tie-break key `(daysUntilArrival, arrival)`
of section 4.1 step 3, with `daysUntilArrival = 0` for a current booking. -/
def specKey (today : Int) (b : Booking) : Int × Int :=
  (if b.arrival ≤ today ∧ today < b.departure then 0 else b.arrival - today, b.arrival)

/-- Strict lexicographic order on spec keys. -/
def keyLt (k1 k2 : Int × Int) : Bool :=
  decide (k1.1 < k2.1) || ((k1.1 == k2.1) && decide (k1.2 < k2.2))

/-- Modelled from the spec: rank the candidates by `specKey` ascending and pick
the minimum (section 4.1 step 3). -/
def specPick (df : List Booking) (today : Int) : Option Booking :=
  match specCandidates df today with
  | [] => none
  | b :: rest =>
      some (rest.foldl
        (fun best x => if keyLt (specKey today x) (specKey today best) then x else best) b)

/-! ### Dates as ISO strings

`update_auth_timewindow` sends `isoformat(timespec="milliseconds") + "Z"` and
`parse_nuki_iso_utc_naive` reads such strings back with
`datetime.fromisoformat` under a `try/except` returning `None`.  Day number 0
of the model is 2000-03-01 (a March-based epoch, so that leap days fall at the
end of each 4-year block within the modelled range). -/

/-- The decimal digit character for `d < 10`. -/
def digitChar (d : Nat) : Char := Char.ofNat (48 + d)

/-- Is `c` a decimal digit? -/
def isDigitC (c : Char) : Bool := 48 ≤ c.toNat && c.toNat ≤ 57

/-- Numeric value of a digit character. -/
def digitVal (c : Char) : Nat := c.toNat - 48

/-- Decimal digits of `n`, most significant first, prepended to `acc`; the
first argument is structural fuel (any fuel `>= n` gives the digits of `n`),
so that the function reduces inside the kernel. -/
def natCharsGo : Nat → Nat → List Char → List Char
  | 0, n, acc => digitChar n :: acc
  | fuel + 1, n, acc =>
      if n < 10 then digitChar n :: acc
      else natCharsGo fuel (n / 10) (digitChar (n % 10) :: acc)

/-- Decimal digits of `n`. -/
def natChars (n : Nat) : List Char := natCharsGo n n []

/-- Two-digit zero-padded rendering of `n < 100`. -/
def pad2 (n : Nat) : List Char := [digitChar (n / 10 % 10), digitChar (n % 10)]

/-- Civil `(year, month, day)` to days since 2000-03-01 (the `date` ordinal up
to a constant shift, on the modelled range). -/
def daysFromCivil (y m d : Nat) : Nat :=
  let y2 := if m ≤ 2 then y - 1 else y
  let mp := if m ≤ 2 then m + 9 else m - 3
  let yo := y2 - 2000
  yo / 4 * 1461 + yo % 4 * 365 + (153 * mp + 2) / 5 + (d - 1)

/-- Days since 2000-03-01 back to civil `(year, month, day)`. -/
def civilOfDays (z : Nat) : Nat × Nat × Nat :=
  let q := z / 1461
  let r := z % 1461
  let yib := min (r / 365) 3
  let doy := r - 365 * yib
  let mp := (5 * doy + 2) / 153
  let d := doy - (153 * mp + 2) / 5 + 1
  let m := if mp < 10 then mp + 3 else mp - 9
  (2000 + 4 * q + yib + (if mp < 10 then 0 else 1), m, d)

/-- The character list of `isoformat(timespec="milliseconds")` for a naive UTC
timestamp `t` in seconds (the code's datetimes have zero microseconds, so the
fraction is always `.000`). -/
def isoChars (t : Int) : List Char :=
  let n := t.toNat
  let z := n / 86400
  let s := n % 86400
  let ymd := civilOfDays z
  natChars ymd.1 ++ '-' :: pad2 ymd.2.1 ++ '-' :: pad2 ymd.2.2 ++
    'T' :: pad2 (s / 3600) ++ ':' :: pad2 (s % 3600 / 60) ++ ':' :: pad2 (s % 60) ++
    '.' :: [digitChar 0, digitChar 0, digitChar 0]

/-- The string `update_auth_timewindow` stores on the lock for timestamp `t`:
`isoformat(timespec="milliseconds") + "Z"`. -/
def nukiDateString (t : Int) : String := String.mk (isoChars t ++ ['Z'])

/-- Greedy split of a leading run of digit characters. -/
def splitDigits : List Char → List Char × List Char
  | [] => ([], [])
  | c :: cs =>
      if isDigitC c then
        let p := splitDigits cs
        (c :: p.1, p.2)
      else ([], c :: cs)

/-- Value of a digit-character list, most significant first. -/
def digitsVal (ds : List Char) : Nat := ds.foldl (fun a c => 10 * a + digitVal c) 0

/-- Read exactly two digit characters. -/
def read2 : List Char → Option (Nat × List Char)
  | c1 :: c2 :: rest =>
      if isDigitC c1 && isDigitC c2 then some (10 * digitVal c1 + digitVal c2, rest)
      else none
  | _ => none

/-- A fractional-seconds suffix: one to six digits ending the string (the
fraction is below the 60-second tolerance and the code's comparisons happen at
second granularity, so its value is dropped). -/
def fracOk (cs : List Char) : Bool :=
  let p := splitDigits cs
  decide (1 ≤ p.1.length) && decide (p.1.length ≤ 6) && p.2.isEmpty

/-- The date part `YYYY-MM-DD` of an ISO string; yields days since the epoch
and the rest of the input. -/
def fromisoDate (cs : List Char) : Option (Nat × List Char) :=
  let p := splitDigits cs
  if p.1.length < 4 then none
  else
    match p.2 with
    | c1 :: r1 =>
        if c1 = '-' then
          match read2 r1 with
          | some (mo, c2 :: r2) =>
              if c2 = '-' then
                match read2 r2 with
                | some (d, r3) =>
                    if 1 ≤ mo ∧ mo ≤ 12 ∧ 1 ≤ d ∧ d ≤ 31 then
                      some (daysFromCivil (digitsVal p.1) mo d, r3)
                    else none
                | none => none
              else none
          | _ => none
        else none
    | [] => none

/-- The time part `HH:MM[:SS[.frac]]` of an ISO string, as seconds of day. -/
def fromisoTime (cs : List Char) : Option Nat :=
  match read2 cs with
  | some (h, c1 :: r1) =>
      if c1 = ':' then
        match read2 r1 with
        | some (mi, r2) =>
            if h ≤ 23 ∧ mi ≤ 59 then
              match r2 with
              | [] => some (3600 * h + 60 * mi)
              | c2 :: r3 =>
                  if c2 = ':' then
                    match read2 r3 with
                    | some (s, r4) =>
                        if s ≤ 59 then
                          match r4 with
                          | [] => some (3600 * h + 60 * mi + s)
                          | c3 :: r5 =>
                              if c3 = '.' then
                                if fracOk r5 then some (3600 * h + 60 * mi + s) else none
                              else none
                        else none
                    | none => none
                  else none
            else none
        | none => none
      else none
  | _ => none

/-- Model of `datetime.fromisoformat` on the relevant grammar, as a total
function: `none` where Python raises `ValueError`. -/
def fromiso (cs : List Char) : Option Int :=
  match fromisoDate cs with
  | none => none
  | some (z, rest) =>
      match rest with
      | [] => some ((z * 86400 : Nat) : Int)
      | c :: tcs =>
          if c = 'T' then
            match fromisoTime tcs with
            | some st => some ((z * 86400 + st : Nat) : Int)
            | none => none
          else none

/-- Python `str.strip` whitespace. -/
def wsChar (c : Char) : Bool := c == ' ' || c == '\t' || c == '\n' || c == '\r'

/-- Model of `str.strip()`. -/
def trimChars (cs : List Char) : List Char :=
  ((cs.dropWhile wsChar).reverse.dropWhile wsChar).reverse

/-- The `s = s[:-1] if s.endswith("Z")` step of `parse_nuki_iso_utc_naive`. -/
def stripZ (cs : List Char) : List Char :=
  if cs.getLast? == some 'Z' then cs.dropLast else cs

/-- `parse_nuki_iso_utc_naive` (main.py 356-367): `None` (or an empty /
whitespace-only string) gives `None`; otherwise strip, drop a trailing `Z`,
and parse, with a parse failure caught and turned into `None`. -/
def parse_nuki_iso_utc_naive (s : Option String) : Option Int :=
  match s with
  | none => none
  | some s0 =>
      let cs := trimChars s0.data
      if cs.isEmpty then none else fromiso (stripZ cs)

/-- `times_equal` (main.py 369-374) with the tolerance argument explicit (all
call sites use the default 60 seconds). -/
def times_equal (a b : Option Int) (tolSec : Nat) : Bool :=
  match a, b with
  | none, none => true
  | some x, some y => decide ((x - y).natAbs ≤ tolSec)
  | _, _ => false

/-! ### The lock backend state and `run_once` -/

/-- One authorization entry as seen through the Nuki Web API: its `name`,
`type`, `id`, and raw `allowedFromDate` / `allowedUntilDate` strings. -/
structure AuthEntry where
  name : String
  typ : Int
  authId : Option Int
  allowedFromDate : Option String
  allowedUntilDate : Option String
deriving DecidableEq

/-- ASCII lower-casing of one character (model of `casefold` on the alphabet
in play). -/
def lowerChar (c : Char) : Char :=
  if 65 ≤ c.toNat ∧ c.toNat ≤ 90 then Char.ofNat (c.toNat + 32) else c

/-- The `strip().casefold()` normalization of `find_auth_by_name`. -/
def nameKey (s : String) : List Char := (trimChars s.data).map lowerChar

/-- `find_auth_by_name` (main.py 291-302): the first entry of keypad type 13
whose normalized name equals the normalized target. -/
def find_auth_by_name (auths : List AuthEntry) (authName : String) : Option AuthEntry :=
  auths.find? (fun a => (a.typ == 13) && (nameKey a.name == nameKey authName))

/-- One write call against the Nuki Web API, as issued by `ensure_auth`
(PUT /smartlock/auth), `update_auth_timewindow` and `clear_auth_timewindow`. -/
inductive WriteCall where
  | createAuth (lockId : Int) (name : String) (code : Int) (allowedWeekDays : Int)
  | updateWindow (lockId : Int) (authId : Int) (startUtc : Int) (endUtc : Int)
  | clearWindow (lockId : Int) (authId : Int)
deriving DecidableEq

/-- A fresh id the backend assigns to a created entry. -/
def freshAuthId (auths : List AuthEntry) : Int :=
  1 + auths.foldl (fun m a => max m (a.authId.getD 0)) 0

/-- `ensure_auth` (main.py 304-338): return the entry found by name; if absent
and no PIN is configured raise; if absent with a PIN, create the entry (type
13, the PIN as code, all-weekdays mask 127) with an initially unset window.
Returns the entry the caller uses, the updated backend list, and the trace. -/
def ensure_auth (lockId : Int) (authName : String) (pin : Option Int)
    (auths : List AuthEntry) :
    Except String (AuthEntry × List AuthEntry × List WriteCall) :=
  match find_auth_by_name auths authName with
  | some a => .ok (a, auths, [])
  | none =>
      match pin with
      | none => .error ("Auth '" ++ authName ++ "' nicht gefunden und kein PIN hinterlegt")
      | some p =>
          let e : AuthEntry :=
            { name := authName, typ := 13, authId := some (freshAuthId auths),
              allowedFromDate := none, allowedUntilDate := none }
          .ok (e, auths ++ [e], [WriteCall.createAuth lockId authName p 127])

/-- Backend effect of `update_auth_timewindow` / `clear_auth_timewindow` on
the lock's list: set both raw window strings of the entry with the given id. -/
def setWindowStr (auths : List AuthEntry) (aid : Int) (f u : Option String) :
    List AuthEntry :=
  auths.map fun a =>
    if a.authId == some aid then
      { a with allowedFromDate := f, allowedUntilDate := u }
    else a

/-- One summary line of `run_once`, tagged by its prefix. -/
inductive Line where
  | info (msg : String)
  | ok (msg : String)
  | err (msg : String)
deriving DecidableEq

/-- The literal text a `Line` stands for in `summary_lines`. -/
def Line.render : Line → String
  | .info m => "[INFO] " ++ m
  | .ok m => "[OK] " ++ m
  | .err m => "[ERR] " ++ m

/-- Number of error lines in a summary fragment. -/
def errCount (ls : List Line) : Nat :=
  (ls.filter fun l => match l with | .err _ => true | _ => false).length

/-- Static configuration of one apartment (`load_apartments_from_env`). -/
structure UnitCfg where
  name : String
  authName : String
  smartlockId : Int
  pin : Option Int
deriving DecidableEq

/-- One unit's inputs for one run: its config, the outcome its booking fetch
(`load_bookings`) would have, an injectable failure of the auth-list read, and
the current backend authorization list of its lock. -/
structure UnitState where
  cfg : UnitCfg
  fetch : Except String (List Booking)
  authListFault : Option String
  auths : List AuthEntry

/-- What one iteration of `run_once`'s loop produces for its unit: the lock's
list after the iteration, the write-call trace, the summary lines appended,
and whether the `except` branch fired. -/
structure UnitResult where
  auths : List AuthEntry
  writes : List WriteCall
  lines : List Line
  errored : Bool
deriving DecidableEq

/-- The body of `run_once`'s per-unit loop (main.py 382-456), with the
`try/except` made explicit: any of the failure points (booking fetch, auth
list read, missing entry with no PIN, missing auth id) ends the iteration with
one error line, keeping lines appended and state changed before the failure. -/
def processUnit (g : GCfg) (today : Int) (u : UnitState) : UnitResult :=
  match u.fetch with
  | .error e => ⟨u.auths, [], [.err (u.cfg.name ++ ": " ++ e)], true⟩
  | .ok df =>
      let lines0 : List Line :=
        if is_turnover_today df today then
          [.info (u.cfg.name ++ ": Turnover Day erkannt (Abreise und Anreise heute)")]
        else []
      match u.authListFault with
      | some e => ⟨u.auths, [], lines0 ++ [.err (u.cfg.name ++ ": " ++ e)], true⟩
      | none =>
          let ivToday := next_stay_interval_today g df today
          match ensure_auth u.cfg.smartlockId u.cfg.authName u.cfg.pin u.auths with
          | .error e => ⟨u.auths, [], lines0 ++ [.err (u.cfg.name ++ ": " ++ e)], true⟩
          | .ok (auth, auths1, ws1) =>
              match auth.authId with
              | none =>
                  ⟨auths1, ws1,
                    lines0 ++ [.err (u.cfg.name ++ ": Keine authId fuer '" ++ u.cfg.authName ++ "'")],
                    true⟩
              | some aid =>
                  match ivToday with
                  | some (dFrom, dUntil) =>
                      let current := find_auth_by_name auths1 u.cfg.authName
                      let curFrom := parse_nuki_iso_utc_naive (current.bind (·.allowedFromDate))
                      let curUntil := parse_nuki_iso_utc_naive (current.bind (·.allowedUntilDate))
                      if times_equal curFrom (some dFrom) 60 && times_equal curUntil (some dUntil) 60 then
                        ⟨auths1, ws1,
                          lines0 ++ [.ok (u.cfg.name ++ ": Code '" ++ u.cfg.authName ++ "' bereits korrekt")],
                          false⟩
                      else
                        ⟨setWindowStr auths1 aid (some (nukiDateString dFrom)) (some (nukiDateString dUntil)),
                          ws1 ++ [.updateWindow u.cfg.smartlockId aid dFrom dUntil],
                          lines0 ++ [.ok (u.cfg.name ++ ": Code '" ++ u.cfg.authName ++ "' gesetzt")],
                          false⟩
                  | none =>
                      let current := find_auth_by_name auths1 u.cfg.authName
                      let curFrom := parse_nuki_iso_utc_naive (current.bind (·.allowedFromDate))
                      let curUntil := parse_nuki_iso_utc_naive (current.bind (·.allowedUntilDate))
                      let step1 : List AuthEntry × List WriteCall × List Line :=
                        if curFrom.isSome || curUntil.isSome then
                          (setWindowStr auths1 aid none none,
                            ws1 ++ [.clearWindow u.cfg.smartlockId aid],
                            lines0 ++ [.ok (u.cfg.name ++ ": Kein Aufenthalt heute - Code deaktiviert")])
                        else
                          (auths1, ws1,
                            lines0 ++ [.ok (u.cfg.name ++ ": Kein Aufenthalt heute - Code war bereits deaktiviert")])
                      match next_future_interval g df today with
                      | none => ⟨step1.1, step1.2.1, step1.2.2, false⟩
                      | some (nFrom, nUntil) =>
                          ⟨setWindowStr step1.1 aid (some (nukiDateString nFrom)) (some (nukiDateString nUntil)),
                            step1.2.1 ++ [.updateWindow u.cfg.smartlockId aid nFrom nUntil],
                            step1.2.2 ++ [.ok (u.cfg.name ++ ": Naechster Aufenthalt vorgeplant")],
                            false⟩

/-- Aggregate outcome of one `run_once` invocation. -/
structure RunResult where
  hadError : Bool
  summary : List Line
  writes : List WriteCall
  states : List (List AuthEntry)
deriving DecidableEq

/-- `run_once` (main.py 377-459): process every configured unit in order,
or-ing the error flags and concatenating summaries, traces, and the resulting
per-lock states. -/
def run_once (g : GCfg) (today : Int) (units : List UnitState) : RunResult :=
  match units with
  | [] => ⟨false, [], [], []⟩
  | u :: rest =>
      let r := processUnit g today u
      let rr := run_once g today rest
      ⟨r.errored || rr.hadError, r.lines ++ rr.summary, r.writes ++ rr.writes,
        r.auths :: rr.states⟩

/-- The unit's state at the next scheduled run, when neither the calendar nor
the lock was touched out-of-band in between: only the lock list reflects the
previous run's writes. -/
def stepUnit (g : GCfg) (today : Int) (u : UnitState) : UnitState :=
  { u with auths := (processUnit g today u).auths }

/-! ### Concrete instances used by counterexamples and witnesses

`gStd` is the default deployment configuration: check-in 15:00, check-out
11:00, a constant +02:00 zone offset (CEST, correct for the June examples). -/

/-- Default configuration: `CHECKIN_TIME=15:00`, `CHECKOUT_TIME=11:00`,
UTC offset +02:00. -/
def gStd : GCfg := { checkinSec := 54000, checkoutSec := 39600, tzOffset := fun _ => 7200 }

/-- A keypad-code entry with no window set. -/
def entryUnset : AuthEntry :=
  { name := "guests", typ := 13, authId := some 7,
    allowedFromDate := none, allowedUntilDate := none }

/-- A unit config with no provisioning PIN. -/
def cfgA : UnitCfg := { name := "Apt A", authName := "guests", smartlockId := 1, pin := none }

/-- A unit config with a provisioning PIN. -/
def cfgB : UnitCfg := { name := "Apt B", authName := "guests", smartlockId := 2, pin := some 4711 }

/-- A unit that is vacant today (today = 90) with one future booking. -/
def unitVacantFuture : UnitState :=
  { cfg := cfgA, fetch := .ok [⟨100, 102⟩], authListFault := none, auths := [entryUnset] }

/-- A unit currently in a stay (today = 90). -/
def unitStay : UnitState :=
  { cfg := cfgA, fetch := .ok [⟨89, 95⟩], authListFault := none, auths := [entryUnset] }

/-- A unit whose booking fetch fails. -/
def unitFetchFail : UnitState :=
  { cfg := cfgA, fetch := .error "Spalten nicht gefunden", authListFault := none,
    auths := [entryUnset] }

/-- A keypad-code entry whose window is set to the given UTC bounds, stored as
the strings the update call would write. -/
def entryAt (f u : Int) : AuthEntry :=
  { name := "guests", typ := 13, authId := some 7,
    allowedFromDate := some (nukiDateString f), allowedUntilDate := some (nukiDateString u) }

/-- A keypad-code entry whose stored bound strings are malformed. -/
def entryBad : AuthEntry :=
  { name := "guests", typ := 13, authId := some 7,
    allowedFromDate := some "banana", allowedUntilDate := some "  " }

/-- A unit (no PIN) with the given lock entry and booking rows. -/
def unitWith (e : AuthEntry) (df : List Booking) : UnitState :=
  { cfg := cfgA, fetch := .ok df, authListFault := none, auths := [e] }

/-! ### Lemmas: digits and decimal rendering -/

theorem digitVal_digitChar {d : Nat} (h : d < 10) : digitVal (digitChar d) = d := by
  interval_cases d <;> decide

theorem isDigitC_digitChar {d : Nat} (h : d < 10) : isDigitC (digitChar d) = true := by
  interval_cases d <;> decide

theorem wsChar_of_digit {c : Char} (h : isDigitC c = true) : wsChar c = false := by
  unfold isDigitC at h
  unfold wsChar
  simp only [Bool.and_eq_true, decide_eq_true_eq] at h
  simp only [Bool.or_eq_false_iff, beq_eq_false_iff_ne, ne_eq]
  refine ⟨⟨⟨?_, ?_⟩, ?_⟩, ?_⟩ <;> rintro rfl <;> revert h <;> decide

theorem natCharsGo_small (fuel n : Nat) (acc : List Char) (h : n < 10) :
    natCharsGo fuel n acc = digitChar n :: acc := by
  cases fuel with
  | zero => rfl
  | succ fuel => rw [natCharsGo, if_pos h]

theorem natCharsGo_fuel (fuel : Nat) : ∀ fuel' n acc, n ≤ fuel → n ≤ fuel' →
    natCharsGo fuel n acc = natCharsGo fuel' n acc := by
  induction fuel with
  | zero =>
      intro fuel' n acc h1 _
      have hn : n = 0 := by omega
      subst hn
      rw [natCharsGo_small 0 0 acc (by omega), natCharsGo_small fuel' 0 acc (by omega)]
  | succ fuel ih =>
      intro fuel' n acc h1 h2
      by_cases h : n < 10
      · rw [natCharsGo_small _ _ _ h, natCharsGo_small _ _ _ h]
      · cases fuel' with
        | zero => omega
        | succ fuel' =>
            rw [natCharsGo, if_neg h, natCharsGo, if_neg h]
            have hdiv : n / 10 < n := Nat.div_lt_self (by omega) (by omega)
            exact ih fuel' (n / 10) _ (by omega) (by omega)

theorem natCharsGo_append (fuel : Nat) : ∀ n acc,
    natCharsGo fuel n acc = natCharsGo fuel n [] ++ acc := by
  induction fuel with
  | zero => intro n acc; rfl
  | succ fuel ih =>
      intro n acc
      by_cases h : n < 10
      · rw [natCharsGo_small _ _ _ h, natCharsGo_small _ _ _ h]
        rfl
      · rw [natCharsGo, if_neg h, natCharsGo, if_neg h,
          ih (n / 10) (digitChar (n % 10) :: acc), ih (n / 10) [digitChar (n % 10)]]
        simp

theorem natChars_small {n : Nat} (h : n < 10) : natChars n = [digitChar n] := by
  unfold natChars
  rw [natCharsGo_small _ _ _ h]

theorem natChars_step {n : Nat} (h : 10 ≤ n) :
    natChars n = natChars (n / 10) ++ [digitChar (n % 10)] := by
  unfold natChars
  cases hn : n with
  | zero => omega
  | succ m =>
      rw [natCharsGo, if_neg (by omega), natCharsGo_append]
      have hdiv : (m + 1) / 10 < m + 1 := Nat.div_lt_self (by omega) (by omega)
      rw [natCharsGo_fuel m ((m + 1) / 10) ((m + 1) / 10) [] (by omega) (by omega)]

theorem digitsVal_concat (l : List Char) (c : Char) :
    digitsVal (l ++ [c]) = 10 * digitsVal l + digitVal c := by
  unfold digitsVal
  rw [List.foldl_append]
  rfl

theorem digitsVal_natChars (n : Nat) : digitsVal (natChars n) = n := by
  induction n using Nat.strong_induction_on with
  | _ n ih =>
    by_cases h : n < 10
    · rw [natChars_small h]
      show 10 * 0 + digitVal (digitChar n) = n
      rw [digitVal_digitChar h]
      omega
    · rw [natChars_step (by omega), digitsVal_concat,
        ih (n / 10) (Nat.div_lt_self (by omega) (by omega)),
        digitVal_digitChar (Nat.mod_lt _ (by omega))]
      omega

theorem natChars_all_digits (n : Nat) : ∀ c ∈ natChars n, isDigitC c = true := by
  induction n using Nat.strong_induction_on with
  | _ n ih =>
    intro c hc
    by_cases h : n < 10
    · rw [natChars_small h] at hc
      simp only [List.mem_singleton] at hc
      subst hc
      exact isDigitC_digitChar h
    · rw [natChars_step (by omega)] at hc
      rcases List.mem_append.1 hc with h1 | h1
      · exact ih (n / 10) (Nat.div_lt_self (by omega) (by omega)) c h1
      · simp only [List.mem_singleton] at h1
        subst h1
        exact isDigitC_digitChar (Nat.mod_lt _ (by omega))

theorem natChars_length_ge (k : Nat) : ∀ n : Nat, 10 ^ k ≤ n → k + 1 ≤ (natChars n).length := by
  induction k with
  | zero =>
      intro n _
      by_cases h : n < 10
      · rw [natChars_small h]; simp
      · rw [natChars_step (by omega)]; simp
  | succ k ih =>
      intro n hn
      have h10 : 10 ≤ n := le_trans (by calc 10 = 10 ^ 1 := by norm_num
                                              _ ≤ 10 ^ (k + 1) := Nat.pow_le_pow_right (by omega) (by omega)) hn
      rw [natChars_step h10, List.length_append]
      have hdiv : 10 ^ k ≤ n / 10 := by
        rw [Nat.le_div_iff_mul_le (by omega)]
        calc 10 ^ k * 10 = 10 ^ (k + 1) := by ring
          _ ≤ n := hn
      have := ih (n / 10) hdiv
      simp only [List.length_singleton]
      omega

theorem pad2_digits (n : Nat) : ∀ c ∈ pad2 n, isDigitC c = true := by
  intro c hc
  unfold pad2 at hc
  simp only [List.mem_cons, List.not_mem_nil, or_false] at hc
  rcases hc with rfl | rfl
  · exact isDigitC_digitChar (Nat.mod_lt _ (by omega))
  · exact isDigitC_digitChar (Nat.mod_lt _ (by omega))

theorem splitDigits_append (ds : List Char) (r0 : Char) (rest : List Char)
    (hds : ∀ c ∈ ds, isDigitC c = true) (hr : isDigitC r0 = false) :
    splitDigits (ds ++ r0 :: rest) = (ds, r0 :: rest) := by
  induction ds with
  | nil => simp [splitDigits, hr]
  | cons c cs ih =>
      have hc : isDigitC c = true := hds c (by simp)
      simp only [List.cons_append, splitDigits, hc, if_true, List.append_eq]
      rw [ih (fun x hx => hds x (by simp [hx]))]

theorem splitDigits_all (ds : List Char) (hds : ∀ c ∈ ds, isDigitC c = true) :
    splitDigits ds = (ds, []) := by
  induction ds with
  | nil => rfl
  | cons c cs ih =>
      have hc : isDigitC c = true := hds c (by simp)
      simp only [splitDigits, hc, if_true]
      rw [ih (fun x hx => hds x (by simp [hx]))]

theorem read2_pad2 (n : Nat) (rest : List Char) (h : n < 100) :
    read2 (pad2 n ++ rest) = some (n, rest) := by
  have h1 : n / 10 % 10 < 10 := Nat.mod_lt _ (by omega)
  have h2 : n % 10 < 10 := Nat.mod_lt _ (by omega)
  have e : pad2 n ++ rest = digitChar (n / 10 % 10) :: digitChar (n % 10) :: rest := rfl
  rw [e, read2, isDigitC_digitChar h1, isDigitC_digitChar h2]
  simp only [Bool.and_self, if_true, digitVal_digitChar h1, digitVal_digitChar h2]
  have e2 : 10 * (n / 10 % 10) + n % 10 = n := by omega
  rw [e2]

/-! ### Lemmas: the civil calendar and the ISO round trip -/

theorem civilOfDays_props (z : Nat) :
    daysFromCivil (civilOfDays z).1 (civilOfDays z).2.1 (civilOfDays z).2.2 = z ∧
    1 ≤ (civilOfDays z).2.1 ∧ (civilOfDays z).2.1 ≤ 12 ∧
    1 ≤ (civilOfDays z).2.2 ∧ (civilOfDays z).2.2 ≤ 31 ∧
    2000 ≤ (civilOfDays z).1 := by
  unfold civilOfDays daysFromCivil
  dsimp only
  obtain ⟨q, r, hqr, hr⟩ : ∃ q r, z = 1461 * q + r ∧ r < 1461 :=
    ⟨z / 1461, z % 1461, by omega, by omega⟩
  have e1 : z / 1461 = q := by omega
  have e2 : z % 1461 = r := by omega
  rw [e1, e2]
  obtain ⟨yib, hyib⟩ : ∃ y, min (r / 365) 3 = y := ⟨_, rfl⟩
  rw [hyib]
  have h365 : 365 * yib ≤ r ∧ yib ≤ 3 ∧ (yib < 3 → r < 365 * (yib + 1)) := by omega
  generalize hdoy : r - 365 * yib = doy
  have hdoy365 : doy ≤ 365 := by omega
  generalize hmp : (5 * doy + 2) / 153 = mp
  have hmp11 : mp ≤ 11 := by omega
  interval_cases mp <;> split_ifs <;> omega

theorem isoChars_not_ws (t : Int) : ∀ c ∈ isoChars t, wsChar c = false := by
  unfold isoChars
  dsimp only
  repeat rw [List.forall_mem_append]
  repeat rw [List.forall_mem_cons]
  repeat' apply And.intro
  all_goals first
    | decide
    | exact List.forall_mem_nil _
    | (intro c hc; exact wsChar_of_digit (natChars_all_digits _ c hc))
    | (intro c hc; exact wsChar_of_digit (pad2_digits _ c hc))

theorem dropWhile_eq_self_of_not (l : List Char) (h : ∀ c ∈ l, wsChar c = false) :
    l.dropWhile wsChar = l := by
  cases l with
  | nil => rfl
  | cons a l' =>
      have := h a (by simp)
      simp [List.dropWhile_cons, this]

theorem trimChars_eq_self (cs : List Char) (h : ∀ c ∈ cs, wsChar c = false) :
    trimChars cs = cs := by
  unfold trimChars
  rw [dropWhile_eq_self_of_not cs h,
    dropWhile_eq_self_of_not cs.reverse (fun c hc => h c (List.mem_reverse.1 hc)),
    List.reverse_reverse]

theorem fromisoTime_secs (s : Nat) (hs : s < 86400) :
    fromisoTime (pad2 (s / 3600) ++ ':' :: (pad2 (s % 3600 / 60) ++ ':' :: (pad2 (s % 60) ++
      '.' :: [digitChar 0, digitChar 0, digitChar 0]))) = some s := by
  have hh : s / 3600 < 100 := by omega
  have hm : s % 3600 / 60 < 100 := by omega
  have hsec : s % 60 < 100 := by omega
  unfold fromisoTime
  rw [read2_pad2 _ _ hh]
  try dsimp only
  rw [if_pos rfl, read2_pad2 _ _ hm]
  try dsimp only
  rw [if_pos (by omega : s / 3600 ≤ 23 ∧ s % 3600 / 60 ≤ 59)]
  try dsimp only
  rw [if_pos rfl, read2_pad2 _ _ hsec]
  try dsimp only
  rw [if_pos (by omega : s % 60 ≤ 59)]
  try dsimp only
  rw [if_pos rfl, if_pos (by decide : fracOk [digitChar 0, digitChar 0, digitChar 0] = true)]
  congr 1
  omega

theorem fromisoDate_isoChars (y mo dd : Nat) (rest : List Char)
    (hy : 2000 ≤ y) (hmo1 : 1 ≤ mo) (hmo2 : mo ≤ 12) (hd1 : 1 ≤ dd) (hd2 : dd ≤ 31) :
    fromisoDate (natChars y ++ '-' :: (pad2 mo ++ '-' :: (pad2 dd ++ rest))) =
      some (daysFromCivil y mo dd, rest) := by
  unfold fromisoDate
  try dsimp only
  rw [splitDigits_append _ _ _ (natChars_all_digits y) (by decide)]
  try dsimp only
  rw [if_neg (by have := natChars_length_ge 3 y (by omega); omega)]
  try dsimp only
  rw [if_pos rfl, read2_pad2 _ _ (by omega)]
  try dsimp only
  rw [if_pos rfl, read2_pad2 _ _ (by omega)]
  try dsimp only
  rw [if_pos ⟨hmo1, hmo2, hd1, hd2⟩, digitsVal_natChars]

theorem fromiso_isoChars (t : Int) (ht : 0 ≤ t) : fromiso (isoChars t) = some t := by
  have hprops := civilOfDays_props (t.toNat / 86400)
  obtain ⟨y, mo, dd, hciv⟩ : ∃ y mo dd, civilOfDays (t.toNat / 86400) = (y, mo, dd) :=
    ⟨_, _, _, rfl⟩
  rw [hciv] at hprops
  dsimp only at hprops
  obtain ⟨hinv, hmo1, hmo2, hd1, hd2, hy⟩ := hprops
  unfold isoChars
  dsimp only
  rw [hciv]
  try dsimp only
  simp only [List.cons_append, List.append_assoc]
  unfold fromiso
  rw [fromisoDate_isoChars y mo dd _ hy hmo1 hmo2 hd1 hd2]
  dsimp only
  rw [if_pos rfl, fromisoTime_secs _ (by omega)]
  rw [hinv]
  try dsimp only
  have hzs : t.toNat / 86400 * 86400 + t.toNat % 86400 = t.toNat := by omega
  rw [hzs, Int.toNat_of_nonneg ht]

theorem parse_nukiDateString (t : Int) (ht : 0 ≤ t) :
    parse_nuki_iso_utc_naive (some (nukiDateString t)) = some t := by
  unfold parse_nuki_iso_utc_naive nukiDateString
  dsimp only
  have hws : ∀ c ∈ isoChars t ++ ['Z'], wsChar c = false := by
    intro c hc
    rcases List.mem_append.1 hc with h | h
    · exact isoChars_not_ws t c h
    · simp only [List.mem_singleton] at h
      subst h
      decide
  rw [trimChars_eq_self _ hws]
  rw [if_neg (by simp : ¬((isoChars t ++ ['Z']).isEmpty = true))]
  unfold stripZ
  rw [List.getLast?_concat]
  rw [if_pos (by decide : ((some 'Z' == some 'Z') = true)), List.dropLast_concat]
  exact fromiso_isoChars t ht

/-! ### Lemmas: summaries, the lock list, and selection folds -/

theorem errCount_nil : errCount [] = 0 := rfl

theorem errCount_err (m : String) (ls : List Line) :
    errCount (Line.err m :: ls) = errCount ls + 1 := rfl

theorem errCount_info (m : String) (ls : List Line) :
    errCount (Line.info m :: ls) = errCount ls := rfl

theorem errCount_ok (m : String) (ls : List Line) :
    errCount (Line.ok m :: ls) = errCount ls := rfl

theorem errCount_append (l1 l2 : List Line) :
    errCount (l1 ++ l2) = errCount l1 + errCount l2 := by
  unfold errCount
  rw [List.filter_append, List.length_append]

theorem errCount_turnover (u : UnitState) (df : List Booking) (today : Int) :
    errCount
      (if is_turnover_today df today then
        [Line.info (u.cfg.name ++ ": Turnover Day erkannt (Abreise und Anreise heute)")]
      else []) = 0 := by
  split_ifs <;> rfl

theorem run_once_append (g : GCfg) (today : Int) (us vs : List UnitState) :
    run_once g today (us ++ vs) =
      ⟨(run_once g today us).hadError || (run_once g today vs).hadError,
        (run_once g today us).summary ++ (run_once g today vs).summary,
        (run_once g today us).writes ++ (run_once g today vs).writes,
        (run_once g today us).states ++ (run_once g today vs).states⟩ := by
  induction us with
  | nil => simp [run_once]
  | cons u us ih =>
      simp only [List.cons_append, run_once, List.append_eq, ih, Bool.or_assoc, List.append_assoc]

theorem find_auth_setWindow (auths : List AuthEntry) (aid : Int) (f u : Option String)
    (nm : String) :
    find_auth_by_name (setWindowStr auths aid f u) nm =
      (find_auth_by_name auths nm).map (fun a =>
        if a.authId == some aid then
          { a with allowedFromDate := f, allowedUntilDate := u }
        else a) := by
  unfold find_auth_by_name setWindowStr
  rw [List.find?_map]
  have hp : ((fun a : AuthEntry => a.typ == 13 && nameKey a.name == nameKey nm) ∘ fun a =>
      if a.authId == some aid then
        { a with allowedFromDate := f, allowedUntilDate := u }
      else a) =
      (fun a : AuthEntry => a.typ == 13 && nameKey a.name == nameKey nm) := by
    funext a
    simp only [Function.comp_apply]
    by_cases h : a.authId == some aid
    · rw [if_pos h]
    · rw [if_neg h]
  rw [hp]

theorem foldl_min_mem (b : Booking) (rest : List Booking) :
    rest.foldl (fun best x => if x.arrival < best.arrival then x else best) b ∈ b :: rest := by
  induction rest generalizing b with
  | nil => simp
  | cons x xs ih =>
      rw [List.foldl_cons]
      by_cases h : x.arrival < b.arrival
      · rw [if_pos h]
        have h2 := ih x
        simp only [List.mem_cons] at h2 ⊢
        tauto
      · rw [if_neg h]
        have h2 := ih b
        simp only [List.mem_cons] at h2 ⊢
        tauto

theorem foldl_min_le (b : Booking) (rest : List Booking) :
    ∀ x ∈ b :: rest,
      (rest.foldl (fun best y => if y.arrival < best.arrival then y else best) b).arrival ≤
        x.arrival := by
  induction rest generalizing b with
  | nil =>
      intro x hx
      simp only [List.mem_singleton] at hx
      subst hx
      exact le_refl _
  | cons y ys ih =>
      intro x hx
      rw [List.foldl_cons]
      by_cases h : y.arrival < b.arrival
      · rw [if_pos h]
        rcases List.mem_cons.1 hx with rfl | hx2
        · have := ih y y (by simp)
          omega
        · exact ih y x hx2
      · rw [if_neg h]
        rcases List.mem_cons.1 hx with rfl | hx2
        · exact ih x x (by simp)
        · rcases List.mem_cons.1 hx2 with rfl | hx3
          · have := ih b b (by simp)
            omega
          · exact ih b x (by simp [hx3])

theorem minArrivalFirst_mem (b : Booking) (rest : List Booking) :
    minArrivalFirst b rest ∈ b :: rest := foldl_min_mem b rest

theorem minArrivalFirst_le (b : Booking) (rest : List Booking) :
    ∀ x ∈ b :: rest, (minArrivalFirst b rest).arrival ≤ x.arrival := foldl_min_le b rest

theorem times_equal_refl (x : Int) (tol : Nat) : times_equal (some x) (some x) tol = true := by
  unfold times_equal
  simp

theorem errCount_processUnit (g : GCfg) (today : Int) (u : UnitState) :
    errCount (processUnit g today u).lines =
      if (processUnit g today u).errored then 1 else 0 := by
  unfold processUnit
  cases hf : u.fetch with
  | error e => simp [errCount_err, errCount_nil]
  | ok df =>
      try dsimp only
      cases hfa : u.authListFault with
      | some e =>
          try dsimp only
          simp [errCount_append, errCount_turnover, errCount_err, errCount_nil, errCount_info]
      | none =>
          try dsimp only
          cases he : ensure_auth u.cfg.smartlockId u.cfg.authName u.cfg.pin u.auths with
          | error e =>
              try dsimp only
              simp [errCount_append, errCount_turnover, errCount_err, errCount_nil,
                errCount_info]
          | ok tr =>
              obtain ⟨auth, auths1, ws1⟩ := tr
              try dsimp only
              cases hid : auth.authId with
              | none =>
                  try dsimp only
                  simp [errCount_append, errCount_turnover, errCount_err, errCount_nil,
                    errCount_info]
              | some aid =>
                  try dsimp only
                  cases hiv : next_stay_interval_today g df today with
                  | some iv =>
                      obtain ⟨dFrom, dUntil⟩ := iv
                      try dsimp only
                      split_ifs <;>
                        simp_all [errCount_append, errCount_ok, errCount_nil, errCount_info,
                          errCount_err]
                  | none =>
                      try dsimp only
                      cases hnf : next_future_interval g df today with
                      | none =>
                          try dsimp only
                          split_ifs <;>
                            simp_all [errCount_append, errCount_ok, errCount_nil, errCount_info,
                              errCount_err]
                      | some nf =>
                          obtain ⟨nFrom, nUntil⟩ := nf
                          try dsimp only
                          split_ifs <;>
                            simp_all [errCount_append, errCount_ok, errCount_nil, errCount_info,
                              errCount_err]

/-! ### Lemmas: resolver characterization -/

theorem stayMatches_false_of_future (today : Int) (x : Booking) (h : today < x.arrival) :
    stayMatches today x = false := by
  unfold stayMatches
  simp only [Bool.or_eq_false_iff, Bool.and_eq_false_iff, decide_eq_false_iff_not, not_lt,
    beq_eq_false_iff_ne, ne_eq]
  omega

theorem stayMatches_true_of_current (today : Int) (x : Booking)
    (h1 : x.arrival ≤ today) (h2 : today < x.departure) : stayMatches today x = true := by
  unfold stayMatches
  simp only [Bool.or_eq_true, Bool.and_eq_true, decide_eq_true_eq, beq_iff_eq]
  omega

theorem resolve_window_stay (g : GCfg) (today : Int) (df : List Booking) (b : Booking)
    (h : df.find? (stayMatches today) = some b) :
    resolve_window g df today = some (mkWindow g b.arrival b.departure) := by
  unfold resolve_window next_stay_interval_today
  rw [h]
  rfl

theorem resolve_window_eq_future (g : GCfg) (today : Int) (df : List Booking)
    (h : df.find? (stayMatches today) = none) :
    resolve_window g df today = next_future_interval g df today := by
  unfold resolve_window next_stay_interval_today
  rw [h]
  rfl

theorem next_future_eq_min (g : GCfg) (today : Int) (df : List Booking) (c : Booking)
    (rest : List Booking)
    (hfut : df.filter (fun x => decide (today < x.arrival)) = c :: rest) :
    next_future_interval g df today =
      some (mkWindow g (minArrivalFirst c rest).arrival (minArrivalFirst c rest).departure) := by
  unfold next_future_interval
  rw [hfut]

/-! ### Claim theorems -/

/-- C4: for every booking that is current (`arrival <= today < departure`), the
resolver returns the window from arrival at check-in to departure at check-out
(in the configured zone, converted to UTC), regardless of any other future
bookings present; the one-day addition to the end is applied exactly when the
computed local end is `<=` the computed local start, so with check-in 15:00,
check-out 11:00 and a two-day stay the end stays at the departure day 11:00
local. -/
theorem C4_current_stay_window (g : GCfg) (today : Int) (b : Booking) (l1 l2 : List Booking)
    (hb1 : b.arrival ≤ today) (hb2 : today < b.departure)
    (hothers : ∀ x ∈ l1 ++ l2, today < x.arrival) :
    next_stay_interval_today g (l1 ++ b :: l2) today =
      some (mkWindow g b.arrival b.departure) ∧
    mkWindow g b.arrival b.departure =
      (toUTC g (localDT b.arrival g.checkinSec),
        toUTC g (if localDT b.departure g.checkoutSec ≤ localDT b.arrival g.checkinSec
          then localDT b.departure g.checkoutSec + 86400
          else localDT b.departure g.checkoutSec)) ∧
    (g.checkinSec = 54000 → g.checkoutSec = 39600 → b.departure = b.arrival + 2 →
      mkWindow g b.arrival b.departure =
        (toUTC g (localDT b.arrival 54000), toUTC g (localDT (b.arrival + 2) 39600))) := by
  refine ⟨?_, rfl, ?_⟩
  · unfold next_stay_interval_today
    rw [List.find?_append]
    have hl1 : l1.find? (stayMatches today) = none := by
      rw [List.find?_eq_none]
      intro x hx
      rw [stayMatches_false_of_future today x (hothers x (List.mem_append.2 (Or.inl hx)))]
      simp
    rw [hl1, List.find?_cons_of_pos _ (stayMatches_true_of_current today b hb1 hb2)]
    rfl
  · intro h1 h2 h3
    unfold mkWindow localDT
    rw [h1, h2, h3]
    try dsimp only
    rw [if_neg (by omega)]

/-- Witness for C4 at the spec's concrete example: check-in 15:00, check-out
11:00, arrival 2025-06-10, departure 2025-06-12, today the arrival day, with
an unrelated future booking in July ahead of it in row order. -/
theorem C4_current_stay_window_witness :
    ((⟨(daysFromCivil 2025 6 10 : Int), (daysFromCivil 2025 6 12 : Int)⟩ : Booking).arrival ≤
      (daysFromCivil 2025 6 10 : Int)) ∧
    ((daysFromCivil 2025 6 10 : Int) <
      (⟨(daysFromCivil 2025 6 10 : Int), (daysFromCivil 2025 6 12 : Int)⟩ : Booking).departure) ∧
    (∀ x ∈ ([⟨(daysFromCivil 2025 7 1 : Int), (daysFromCivil 2025 7 3 : Int)⟩] ++
        ([] : List Booking)), (daysFromCivil 2025 6 10 : Int) < x.arrival) ∧
    (next_stay_interval_today gStd
        ([⟨(daysFromCivil 2025 7 1 : Int), (daysFromCivil 2025 7 3 : Int)⟩] ++
          ⟨(daysFromCivil 2025 6 10 : Int), (daysFromCivil 2025 6 12 : Int)⟩ :: [])
        (daysFromCivil 2025 6 10 : Int) =
      some (mkWindow gStd (daysFromCivil 2025 6 10 : Int) (daysFromCivil 2025 6 12 : Int)) ∧
      mkWindow gStd (daysFromCivil 2025 6 10 : Int) (daysFromCivil 2025 6 12 : Int) =
        (toUTC gStd (localDT (daysFromCivil 2025 6 10 : Int) gStd.checkinSec),
          toUTC gStd
            (if localDT (daysFromCivil 2025 6 12 : Int) gStd.checkoutSec ≤
                localDT (daysFromCivil 2025 6 10 : Int) gStd.checkinSec
              then localDT (daysFromCivil 2025 6 12 : Int) gStd.checkoutSec + 86400
              else localDT (daysFromCivil 2025 6 12 : Int) gStd.checkoutSec)) ∧
      (gStd.checkinSec = 54000 → gStd.checkoutSec = 39600 →
        (⟨(daysFromCivil 2025 6 10 : Int), (daysFromCivil 2025 6 12 : Int)⟩ : Booking).departure =
          (⟨(daysFromCivil 2025 6 10 : Int), (daysFromCivil 2025 6 12 : Int)⟩ : Booking).arrival + 2 →
        mkWindow gStd (daysFromCivil 2025 6 10 : Int) (daysFromCivil 2025 6 12 : Int) =
          (toUTC gStd (localDT (daysFromCivil 2025 6 10 : Int) 54000),
            toUTC gStd (localDT ((daysFromCivil 2025 6 10 : Int) + 2) 39600)))) :=
  ⟨by decide, by decide, by decide,
    C4_current_stay_window gStd (daysFromCivil 2025 6 10 : Int)
      ⟨(daysFromCivil 2025 6 10 : Int), (daysFromCivil 2025 6 12 : Int)⟩
      [⟨(daysFromCivil 2025 7 1 : Int), (daysFromCivil 2025 7 3 : Int)⟩] []
      (by decide) (by decide) (by decide)⟩

/-- C3 counterexample: with `today = 10` and two overlapping current bookings
in row order `[⟨8, 15⟩, ⟨6, 15⟩]`, the spec's rule (minimum under the key
`(daysUntilArrival, arrival)`) picks `⟨6, 15⟩`, but the code's resolver returns
the window of the first matching row `⟨8, 15⟩`, and the two windows differ. -/
theorem C3_counterexample :
    specPick [⟨8, 15⟩, ⟨6, 15⟩] 10 = some ⟨6, 15⟩ ∧
    resolve_window gStd [⟨8, 15⟩, ⟨6, 15⟩] 10 = some (mkWindow gStd 8 15) ∧
    mkWindow gStd 8 15 ≠ mkWindow gStd 6 15 := by
  refine ⟨by decide, by decide, by decide⟩

/-- C3 (amended): a current-or-arriving-today booking always wins over any
future one — the resolver returns the window of the FIRST such row in
spreadsheet order (not the minimum of the spec's key); when none exists, among
the strictly future bookings the soonest-arriving wins (earliest row on ties);
in particular with futures arriving 2025-06-10 and 2025-06-15 and today =
2025-06-01 the 2025-06-10 booking is picked. -/
theorem C3_amended_selection (g : GCfg) (df : List Booking) (today : Int) :
    (∀ b, df.find? (stayMatches today) = some b →
      resolve_window g df today = some (mkWindow g b.arrival b.departure)) ∧
    (df.find? (stayMatches today) = none →
      df.filter (fun x => decide (today < x.arrival)) ≠ [] →
      ∃ m ∈ df, today < m.arrival ∧
        (∀ f ∈ df, today < f.arrival → m.arrival ≤ f.arrival) ∧
        resolve_window g df today = some (mkWindow g m.arrival m.departure)) ∧
    resolve_window gStd
      [⟨(daysFromCivil 2025 6 10 : Int), (daysFromCivil 2025 6 12 : Int)⟩,
        ⟨(daysFromCivil 2025 6 15 : Int), (daysFromCivil 2025 6 17 : Int)⟩]
      (daysFromCivil 2025 6 1 : Int) =
      some (mkWindow gStd (daysFromCivil 2025 6 10 : Int) (daysFromCivil 2025 6 12 : Int)) := by
  refine ⟨fun b hb => resolve_window_stay g today df b hb, ?_, by decide⟩
  intro hnone hne
  cases hfut : df.filter (fun x => decide (today < x.arrival)) with
  | nil => exact absurd hfut hne
  | cons c rest =>
      refine ⟨minArrivalFirst c rest, ?_, ?_, ?_, ?_⟩
      · have hm := minArrivalFirst_mem c rest
        rw [← hfut] at hm
        exact (List.mem_filter.1 hm).1
      · have hm := minArrivalFirst_mem c rest
        rw [← hfut] at hm
        have := (List.mem_filter.1 hm).2
        simpa using this
      · intro f hf hfa
        have hfmem : f ∈ c :: rest := by
          rw [← hfut]
          exact List.mem_filter.2 ⟨hf, by simpa using hfa⟩
        exact minArrivalFirst_le c rest f hfmem
      · rw [resolve_window_eq_future g today df hnone, next_future_eq_min g today df c rest hfut]

/-- Witness for C3 (amended): the stay branch at a current booking, the future
branch at a vacant unit with two future bookings, and the concrete June
example. -/
theorem C3_amended_selection_witness :
    (([⟨5, 12⟩, ⟨20, 22⟩] : List Booking).find? (stayMatches 10) = some ⟨5, 12⟩ ∧
      resolve_window gStd [⟨5, 12⟩, ⟨20, 22⟩] 10 = some (mkWindow gStd 5 12)) ∧
    (([⟨20, 22⟩, ⟨15, 18⟩] : List Booking).find? (stayMatches 10) = none ∧
      ([⟨20, 22⟩, ⟨15, 18⟩] : List Booking).filter (fun x => decide ((10 : Int) < x.arrival)) ≠ [] ∧
      ∃ m ∈ ([⟨20, 22⟩, ⟨15, 18⟩] : List Booking), (10 : Int) < m.arrival ∧
        (∀ f ∈ ([⟨20, 22⟩, ⟨15, 18⟩] : List Booking), (10 : Int) < f.arrival →
          m.arrival ≤ f.arrival) ∧
        resolve_window gStd [⟨20, 22⟩, ⟨15, 18⟩] 10 = some (mkWindow gStd m.arrival m.departure)) :=
  ⟨⟨by decide, (C3_amended_selection gStd [⟨5, 12⟩, ⟨20, 22⟩] 10).1 ⟨5, 12⟩ (by decide)⟩,
    ⟨by decide, by decide,
      (C3_amended_selection gStd [⟨20, 22⟩, ⟨15, 18⟩] 10).2.1 (by decide) (by decide)⟩⟩

/-- C9 counterexample: the resolver is NOT order-independent — permuting two
overlapping current bookings changes the result, because the first matching
row in spreadsheet order wins. -/
theorem C9_counterexample :
    ([⟨3, 12⟩, ⟨4, 12⟩] : List Booking).Perm [⟨4, 12⟩, ⟨3, 12⟩] ∧
    resolve_window gStd [⟨3, 12⟩, ⟨4, 12⟩] 10 = some (mkWindow gStd 3 12) ∧
    resolve_window gStd [⟨4, 12⟩, ⟨3, 12⟩] 10 = some (mkWindow gStd 4 12) ∧
    mkWindow gStd 3 12 ≠ mkWindow gStd 4 12 :=
  ⟨List.Perm.swap _ _ _, by decide, by decide, by decide⟩

/-- C9 (amended): the resolver is permutation-invariant provided at most one
row matches the current-or-arriving-today predicate and no two distinct future
rows share an arrival date; without those provisos the first-row tie-breaking
makes it order-dependent. -/
theorem C9_amended_permutation (g : GCfg) (today : Int) (df df' : List Booking)
    (hperm : df.Perm df')
    (hstay : ∀ x ∈ df, ∀ y ∈ df, stayMatches today x = true → stayMatches today y = true →
      x = y)
    (hfut : ∀ x ∈ df, ∀ y ∈ df, today < x.arrival → today < y.arrival →
      x.arrival = y.arrival → x = y) :
    resolve_window g df today = resolve_window g df' today := by
  cases h : df.find? (stayMatches today) with
  | some b =>
      have hpb : stayMatches today b = true := List.find?_some h
      have hbmem : b ∈ df := List.mem_of_find?_eq_some h
      cases h' : df'.find? (stayMatches today) with
      | none =>
          exfalso
          have := List.find?_eq_none.1 h' b (hperm.mem_iff.1 hbmem)
          exact this hpb
      | some b' =>
          have hpb' : stayMatches today b' = true := List.find?_some h'
          have hb'mem : b' ∈ df := hperm.mem_iff.2 (List.mem_of_find?_eq_some h')
          have hbb : b = b' := hstay b hbmem b' hb'mem hpb hpb'
          rw [resolve_window_stay g today df b h, resolve_window_stay g today df' b' h', hbb]
  | none =>
      have h' : df'.find? (stayMatches today) = none := by
        rw [List.find?_eq_none]
        intro x hx
        exact List.find?_eq_none.1 h x (hperm.mem_iff.2 hx)
      rw [resolve_window_eq_future g today df h, resolve_window_eq_future g today df' h']
      have hpf : (df.filter (fun x => decide (today < x.arrival))).Perm
          (df'.filter (fun x => decide (today < x.arrival))) := hperm.filter _
      cases hfd : df.filter (fun x => decide (today < x.arrival)) with
      | nil =>
          rw [hfd] at hpf
          have hfd' : df'.filter (fun x => decide (today < x.arrival)) = [] :=
            hpf.symm.eq_nil
          unfold next_future_interval
          rw [hfd, hfd']
      | cons c rest =>
          cases hfd' : df'.filter (fun x => decide (today < x.arrival)) with
          | nil =>
              exfalso
              rw [hfd, hfd'] at hpf
              exact List.cons_ne_nil c rest hpf.eq_nil
          | cons c' rest' =>
              rw [next_future_eq_min g today df c rest hfd,
                next_future_eq_min g today df' c' rest' hfd']
              have hmf : minArrivalFirst c rest ∈
                  df.filter (fun x => decide (today < x.arrival)) := by
                rw [hfd]
                exact minArrivalFirst_mem c rest
              have hmf' : minArrivalFirst c' rest' ∈
                  df'.filter (fun x => decide (today < x.arrival)) := by
                rw [hfd']
                exact minArrivalFirst_mem c' rest'
              have hm'in : minArrivalFirst c' rest' ∈
                  df.filter (fun x => decide (today < x.arrival)) := hpf.mem_iff.2 hmf'
              have hmin' : minArrivalFirst c rest ∈
                  df'.filter (fun x => decide (today < x.arrival)) := hpf.mem_iff.1 hmf
              have hle : (minArrivalFirst c rest).arrival ≤ (minArrivalFirst c' rest').arrival := by
                apply minArrivalFirst_le c rest
                rw [← hfd]
                exact hm'in
              have hle' : (minArrivalFirst c' rest').arrival ≤ (minArrivalFirst c rest).arrival := by
                apply minArrivalFirst_le c' rest'
                rw [← hfd']
                exact hmin'
              have hm_df := List.mem_filter.1 hmf
              have hm'_df := List.mem_filter.1 hm'in
              have heq : minArrivalFirst c rest = minArrivalFirst c' rest' := by
                apply hfut _ hm_df.1 _ hm'_df.1
                · simpa using hm_df.2
                · simpa using hm'_df.2
                · omega
              rw [heq]

/-- Witness for C9 (amended): swapping two rows of a calendar with one current
and one future booking leaves the resolved window unchanged. -/
theorem C9_amended_permutation_witness :
    ([⟨5, 12⟩, ⟨20, 22⟩] : List Booking).Perm [⟨20, 22⟩, ⟨5, 12⟩] ∧
    (∀ x ∈ ([⟨5, 12⟩, ⟨20, 22⟩] : List Booking), ∀ y ∈ ([⟨5, 12⟩, ⟨20, 22⟩] : List Booking),
      stayMatches 10 x = true → stayMatches 10 y = true → x = y) ∧
    (∀ x ∈ ([⟨5, 12⟩, ⟨20, 22⟩] : List Booking), ∀ y ∈ ([⟨5, 12⟩, ⟨20, 22⟩] : List Booking),
      (10 : Int) < x.arrival → (10 : Int) < y.arrival → x.arrival = y.arrival → x = y) ∧
    resolve_window gStd [⟨5, 12⟩, ⟨20, 22⟩] 10 = resolve_window gStd [⟨20, 22⟩, ⟨5, 12⟩] 10 :=
  ⟨List.Perm.swap _ _ _, by decide, by decide,
    C9_amended_permutation gStd 10 [⟨5, 12⟩, ⟨20, 22⟩] [⟨20, 22⟩, ⟨5, 12⟩]
      (List.Perm.swap _ _ _) (by decide) (by decide)⟩

/-! ### Lemmas: `processUnit` branch characterizations (entry present) -/

theorem ensure_auth_found (lockId : Int) (authName : String) (pin : Option Int)
    (auths : List AuthEntry) (e : AuthEntry)
    (hfind : find_auth_by_name auths authName = some e) :
    ensure_auth lockId authName pin auths = .ok (e, auths, []) := by
  unfold ensure_auth
  rw [hfind]

theorem processUnit_stay_eq (g : GCfg) (today : Int) (u : UnitState) (df : List Booking)
    (e : AuthEntry) (aid dFrom dUntil : Int)
    (hf : u.fetch = .ok df)
    (hfa : u.authListFault = none)
    (hfind : find_auth_by_name u.auths u.cfg.authName = some e)
    (hid : e.authId = some aid)
    (hiv : next_stay_interval_today g df today = some (dFrom, dUntil)) :
    processUnit g today u =
      if times_equal (parse_nuki_iso_utc_naive e.allowedFromDate) (some dFrom) 60 &&
          times_equal (parse_nuki_iso_utc_naive e.allowedUntilDate) (some dUntil) 60 then
        ⟨u.auths, [],
          (if is_turnover_today df today then
            [Line.info (u.cfg.name ++ ": Turnover Day erkannt (Abreise und Anreise heute)")]
          else []) ++
            [Line.ok (u.cfg.name ++ ": Code '" ++ u.cfg.authName ++ "' bereits korrekt")],
          false⟩
      else
        ⟨setWindowStr u.auths aid (some (nukiDateString dFrom)) (some (nukiDateString dUntil)),
          [WriteCall.updateWindow u.cfg.smartlockId aid dFrom dUntil],
          (if is_turnover_today df today then
            [Line.info (u.cfg.name ++ ": Turnover Day erkannt (Abreise und Anreise heute)")]
          else []) ++
            [Line.ok (u.cfg.name ++ ": Code '" ++ u.cfg.authName ++ "' gesetzt")],
          false⟩ := by
  unfold processUnit
  rw [hf]
  try dsimp only
  rw [hfa]
  try dsimp only
  rw [hiv, ensure_auth_found _ _ _ _ _ hfind]
  try dsimp only
  rw [hid]
  try dsimp only
  rw [hfind]
  try dsimp only
  rfl

theorem processUnit_vacant_eq (g : GCfg) (today : Int) (u : UnitState) (df : List Booking)
    (e : AuthEntry) (aid : Int)
    (hf : u.fetch = .ok df)
    (hfa : u.authListFault = none)
    (hfind : find_auth_by_name u.auths u.cfg.authName = some e)
    (hid : e.authId = some aid)
    (hiv : next_stay_interval_today g df today = none) :
    processUnit g today u =
      (let lines0 : List Line :=
        if is_turnover_today df today then
          [Line.info (u.cfg.name ++ ": Turnover Day erkannt (Abreise und Anreise heute)")]
        else []
      let step1 : List AuthEntry × List WriteCall × List Line :=
        if (parse_nuki_iso_utc_naive e.allowedFromDate).isSome ||
            (parse_nuki_iso_utc_naive e.allowedUntilDate).isSome then
          (setWindowStr u.auths aid none none,
            [WriteCall.clearWindow u.cfg.smartlockId aid],
            lines0 ++ [Line.ok (u.cfg.name ++ ": Kein Aufenthalt heute - Code deaktiviert")])
        else
          (u.auths, [],
            lines0 ++
              [Line.ok (u.cfg.name ++ ": Kein Aufenthalt heute - Code war bereits deaktiviert")])
      match next_future_interval g df today with
      | none => ⟨step1.1, step1.2.1, step1.2.2, false⟩
      | some (nFrom, nUntil) =>
          ⟨setWindowStr step1.1 aid (some (nukiDateString nFrom)) (some (nukiDateString nUntil)),
            step1.2.1 ++ [WriteCall.updateWindow u.cfg.smartlockId aid nFrom nUntil],
            step1.2.2 ++ [Line.ok (u.cfg.name ++ ": Naechster Aufenthalt vorgeplant")],
            false⟩) := by
  unfold processUnit
  rw [hf]
  try dsimp only
  rw [hfa]
  try dsimp only
  rw [hiv, ensure_auth_found _ _ _ _ _ hfind]
  try dsimp only
  rw [hid]
  try dsimp only
  rw [hfind]
  try dsimp only
  rfl

/-- C5: two windows are considered equal iff both are absent, or both present
and each corresponding bound differs by at most 60 seconds; a desired window
whose bounds are each within 60 seconds of the current one produces no update
call, while a bound 61 or more seconds off triggers the update call. -/
theorem C5_tolerance_equality (a b : Option Int) (g : GCfg) (today : Int) (u : UnitState)
    (df : List Booking) (e : AuthEntry) (aid dFrom dUntil cf cu : Int)
    (hf : u.fetch = .ok df) (hfa : u.authListFault = none)
    (hfind : find_auth_by_name u.auths u.cfg.authName = some e)
    (hid : e.authId = some aid)
    (hiv : next_stay_interval_today g df today = some (dFrom, dUntil))
    (hcf : parse_nuki_iso_utc_naive e.allowedFromDate = some cf)
    (hcu : parse_nuki_iso_utc_naive e.allowedUntilDate = some cu) :
    (times_equal a b 60 = true ↔
      (a = none ∧ b = none) ∨ ∃ x y, a = some x ∧ b = some y ∧ (x - y).natAbs ≤ 60) ∧
    ((cf - dFrom).natAbs ≤ 60 ∧ (cu - dUntil).natAbs ≤ 60 →
      (processUnit g today u).writes = []) ∧
    (61 ≤ (cf - dFrom).natAbs ∨ 61 ≤ (cu - dUntil).natAbs →
      (processUnit g today u).writes =
        [WriteCall.updateWindow u.cfg.smartlockId aid dFrom dUntil]) := by
  refine ⟨?_, ?_, ?_⟩
  · unfold times_equal
    cases a <;> cases b <;> simp
  · intro h
    rw [processUnit_stay_eq g today u df e aid dFrom dUntil hf hfa hfind hid hiv, hcf, hcu]
    have hcond : (times_equal (some cf) (some dFrom) 60 &&
        times_equal (some cu) (some dUntil) 60) = true := by
      unfold times_equal
      simp only [Bool.and_eq_true, decide_eq_true_eq]
      exact h
    rw [if_pos hcond]
  · intro h
    rw [processUnit_stay_eq g today u df e aid dFrom dUntil hf hfa hfind hid hiv, hcf, hcu]
    have hcond : (times_equal (some cf) (some dFrom) 60 &&
        times_equal (some cu) (some dUntil) 60) = false := by
      unfold times_equal
      rcases h with h | h <;> simp only [Bool.and_eq_false_iff, decide_eq_false_iff_not, not_le]
      · left
        omega
      · right
        omega
    rw [hcond]
    rfl

/-- C6: for a unit whose bookings are all in the past (no current and no
future booking), the resolver returns none, and reconciliation clears the
window iff at least one bound of the lock's current window is set, otherwise
issues no write call at all. -/
theorem C6_vacant_clear (g : GCfg) (today : Int) (u : UnitState) (df : List Booking)
    (e : AuthEntry) (aid : Int)
    (hpast : ∀ b ∈ df, b.departure ≤ today ∧ b.arrival < today)
    (hf : u.fetch = .ok df) (hfa : u.authListFault = none)
    (hfind : find_auth_by_name u.auths u.cfg.authName = some e)
    (hid : e.authId = some aid) :
    next_stay_interval_today g df today = none ∧
    next_future_interval g df today = none ∧
    ((parse_nuki_iso_utc_naive e.allowedFromDate ≠ none ∨
      parse_nuki_iso_utc_naive e.allowedUntilDate ≠ none) →
      (processUnit g today u).writes = [WriteCall.clearWindow u.cfg.smartlockId aid]) ∧
    (parse_nuki_iso_utc_naive e.allowedFromDate = none ∧
      parse_nuki_iso_utc_naive e.allowedUntilDate = none →
      (processUnit g today u).writes = []) := by
  have hstay : next_stay_interval_today g df today = none := by
    unfold next_stay_interval_today
    rw [List.find?_eq_none.2]
    · rfl
    · intro x hx
      have := hpast x hx
      unfold stayMatches
      simp only [Bool.or_eq_true, Bool.and_eq_true, decide_eq_true_eq, beq_iff_eq, not_or,
        not_and, not_lt]
      omega
  have hfut : next_future_interval g df today = none := by
    unfold next_future_interval
    have : df.filter (fun x => decide (today < x.arrival)) = [] := by
      rw [List.filter_eq_nil_iff]
      intro x hx
      have := hpast x hx
      simp only [decide_eq_true_eq, not_lt]
      omega
    rw [this]
  refine ⟨hstay, hfut, ?_, ?_⟩
  · intro h
    rw [processUnit_vacant_eq g today u df e aid hf hfa hfind hid hstay]
    try dsimp only
    rw [hfut]
    have hcond : ((parse_nuki_iso_utc_naive e.allowedFromDate).isSome ||
        (parse_nuki_iso_utc_naive e.allowedUntilDate).isSome) = true := by
      rcases h with h | h <;> simp [Option.isSome_iff_ne_none, h]
    rw [hcond]
    rfl
  · intro h
    rw [processUnit_vacant_eq g today u df e aid hf hfa hfind hid hstay]
    try dsimp only
    rw [hfut]
    have hcond : ((parse_nuki_iso_utc_naive e.allowedFromDate).isSome ||
        (parse_nuki_iso_utc_naive e.allowedUntilDate).isSome) = false := by
      simp [h.1, h.2]
    rw [hcond]
    rfl

/-- Witness for C5: a lock window equal to the desired window produces no
write; a `from` bound 61 seconds off produces exactly the update call. -/
theorem C5_tolerance_equality_witness :
    (unitWith (entryAt 7736400 8240400) [⟨89, 95⟩]).fetch = .ok [⟨89, 95⟩] ∧
    (unitWith (entryAt 7736400 8240400) [⟨89, 95⟩]).authListFault = none ∧
    find_auth_by_name (unitWith (entryAt 7736400 8240400) [⟨89, 95⟩]).auths
      (unitWith (entryAt 7736400 8240400) [⟨89, 95⟩]).cfg.authName =
      some (entryAt 7736400 8240400) ∧
    (entryAt 7736400 8240400).authId = some 7 ∧
    next_stay_interval_today gStd [⟨89, 95⟩] 90 = some (7736400, 8240400) ∧
    parse_nuki_iso_utc_naive (entryAt 7736400 8240400).allowedFromDate = some 7736400 ∧
    parse_nuki_iso_utc_naive (entryAt 7736400 8240400).allowedUntilDate = some 8240400 ∧
    parse_nuki_iso_utc_naive (entryAt (7736400 + 61) 8240400).allowedFromDate =
      some (7736400 + 61) ∧
    (times_equal (some (0 : Int)) (some (30 : Int)) 60 = true ↔
      (some (0 : Int) = none ∧ some (30 : Int) = none) ∨
        ∃ x y, some (0 : Int) = some x ∧ some (30 : Int) = some y ∧ (x - y).natAbs ≤ 60) ∧
    (processUnit gStd 90 (unitWith (entryAt 7736400 8240400) [⟨89, 95⟩])).writes = [] ∧
    (processUnit gStd 90 (unitWith (entryAt (7736400 + 61) 8240400) [⟨89, 95⟩])).writes =
      [WriteCall.updateWindow 1 7 7736400 8240400] :=
  ⟨rfl, rfl, by decide, by decide, by decide, by decide, by decide, by decide,
    (C5_tolerance_equality (some 0) (some 30) gStd 90
      (unitWith (entryAt 7736400 8240400) [⟨89, 95⟩]) [⟨89, 95⟩]
      (entryAt 7736400 8240400) 7 7736400 8240400 7736400 8240400
      rfl rfl (by decide) (by decide) (by decide) (by decide) (by decide)).1,
    (C5_tolerance_equality (some 0) (some 30) gStd 90
      (unitWith (entryAt 7736400 8240400) [⟨89, 95⟩]) [⟨89, 95⟩]
      (entryAt 7736400 8240400) 7 7736400 8240400 7736400 8240400
      rfl rfl (by decide) (by decide) (by decide) (by decide) (by decide)).2.1
      ⟨by decide, by decide⟩,
    (C5_tolerance_equality (some 0) (some 30) gStd 90
      (unitWith (entryAt (7736400 + 61) 8240400) [⟨89, 95⟩]) [⟨89, 95⟩]
      (entryAt (7736400 + 61) 8240400) 7 7736400 8240400 (7736400 + 61) 8240400
      rfl rfl (by decide) (by decide) (by decide) (by decide) (by decide)).2.2
      (Or.inl (by decide))⟩

/-- Witness for C6: with only past bookings, a set window is cleared and an
unset window is left alone with no write at all. -/
theorem C6_vacant_clear_witness :
    (∀ b ∈ ([⟨50, 60⟩] : List Booking), b.departure ≤ (90 : Int) ∧ b.arrival < (90 : Int)) ∧
    (unitWith (entryAt 100 200) [⟨50, 60⟩]).fetch = .ok [⟨50, 60⟩] ∧
    find_auth_by_name (unitWith (entryAt 100 200) [⟨50, 60⟩]).auths
      (unitWith (entryAt 100 200) [⟨50, 60⟩]).cfg.authName = some (entryAt 100 200) ∧
    (entryAt 100 200).authId = some 7 ∧
    next_stay_interval_today gStd [⟨50, 60⟩] 90 = none ∧
    next_future_interval gStd [⟨50, 60⟩] 90 = none ∧
    (processUnit gStd 90 (unitWith (entryAt 100 200) [⟨50, 60⟩])).writes =
      [WriteCall.clearWindow 1 7] ∧
    (processUnit gStd 90 (unitWith entryUnset [⟨50, 60⟩])).writes = [] :=
  ⟨by decide, rfl, by decide, by decide, by decide, by decide,
    (C6_vacant_clear gStd 90 (unitWith (entryAt 100 200) [⟨50, 60⟩]) [⟨50, 60⟩]
      (entryAt 100 200) 7 (by decide) rfl rfl (by decide) (by decide)).2.2.1
      (Or.inl (by decide)),
    (C6_vacant_clear gStd 90 (unitWith entryUnset [⟨50, 60⟩]) [⟨50, 60⟩]
      entryUnset 7 (by decide) rfl rfl (by decide) (by decide)).2.2.2
      ⟨by decide, by decide⟩⟩

/-- C8 (implicit): when no booking matches the current-or-arrival-today
predicate but at least one booking is strictly future, the run issues an
update-window call for the soonest such future booking's window on every run
in this state — for every state of the lock's current bounds (including one
already equal to the desired window), with no tolerance comparison before
writing; at most a clear-window call precedes it. -/
theorem C8_unconditional_future_update (g : GCfg) (today : Int) (u : UnitState)
    (df : List Booking) (e : AuthEntry) (aid : Int) (c : Booking) (rest : List Booking)
    (hf : u.fetch = .ok df) (hfa : u.authListFault = none)
    (hfind : find_auth_by_name u.auths u.cfg.authName = some e)
    (hid : e.authId = some aid)
    (hnostay : df.find? (stayMatches today) = none)
    (hfut : df.filter (fun x => decide (today < x.arrival)) = c :: rest) :
    (minArrivalFirst c rest ∈ df ∧ today < (minArrivalFirst c rest).arrival ∧
      ∀ f ∈ df, today < f.arrival → (minArrivalFirst c rest).arrival ≤ f.arrival) ∧
    ∃ pre, (processUnit g today u).writes =
        pre ++ [WriteCall.updateWindow u.cfg.smartlockId aid
          (mkWindow g (minArrivalFirst c rest).arrival (minArrivalFirst c rest).departure).1
          (mkWindow g (minArrivalFirst c rest).arrival (minArrivalFirst c rest).departure).2] ∧
      (pre = [] ∨ pre = [WriteCall.clearWindow u.cfg.smartlockId aid]) := by
  have hstay : next_stay_interval_today g df today = none := by
    unfold next_stay_interval_today
    rw [hnostay]
    rfl
  constructor
  · refine ⟨?_, ?_, ?_⟩
    · have hm := minArrivalFirst_mem c rest
      rw [← hfut] at hm
      exact (List.mem_filter.1 hm).1
    · have hm := minArrivalFirst_mem c rest
      rw [← hfut] at hm
      simpa using (List.mem_filter.1 hm).2
    · intro f hfm hfarr
      apply minArrivalFirst_le c rest
      rw [← hfut]
      exact List.mem_filter.2 ⟨hfm, by simpa using hfarr⟩
  · rw [processUnit_vacant_eq g today u df e aid hf hfa hfind hid hstay]
    try dsimp only
    rw [next_future_eq_min g today df c rest hfut]
    obtain ⟨w1, w2, hw⟩ : ∃ w1 w2,
        mkWindow g (minArrivalFirst c rest).arrival (minArrivalFirst c rest).departure =
          (w1, w2) := ⟨_, _, rfl⟩
    rw [hw]
    try dsimp only
    cases hcond : ((parse_nuki_iso_utc_naive e.allowedFromDate).isSome ||
        (parse_nuki_iso_utc_naive e.allowedUntilDate).isSome) with
    | true =>
        refine ⟨[WriteCall.clearWindow u.cfg.smartlockId aid], ?_, Or.inr rfl⟩
        simp
    | false =>
        refine ⟨[], ?_, Or.inl rfl⟩
        simp

/-- Witness for C8: a vacant unit with two future bookings whose lock window
already equals the soonest future window still gets a clear plus an update on
every run. -/
theorem C8_unconditional_future_update_witness :
    (unitWith (entryAt 8341200 8499600) [⟨100, 102⟩, ⟨96, 98⟩]).fetch =
      .ok [⟨100, 102⟩, ⟨96, 98⟩] ∧
    find_auth_by_name (unitWith (entryAt 8341200 8499600) [⟨100, 102⟩, ⟨96, 98⟩]).auths
      (unitWith (entryAt 8341200 8499600) [⟨100, 102⟩, ⟨96, 98⟩]).cfg.authName =
      some (entryAt 8341200 8499600) ∧
    ([⟨100, 102⟩, ⟨96, 98⟩] : List Booking).find? (stayMatches 90) = none ∧
    ([⟨100, 102⟩, ⟨96, 98⟩] : List Booking).filter (fun x => decide ((90 : Int) < x.arrival)) =
      ⟨100, 102⟩ :: [⟨96, 98⟩] ∧
    parse_nuki_iso_utc_naive (entryAt 8341200 8499600).allowedFromDate = some 8341200 ∧
    mkWindow gStd 96 98 = (8341200, 8499600) ∧
    (∃ pre, (processUnit gStd 90
        (unitWith (entryAt 8341200 8499600) [⟨100, 102⟩, ⟨96, 98⟩])).writes =
        pre ++ [WriteCall.updateWindow
          (unitWith (entryAt 8341200 8499600) [⟨100, 102⟩, ⟨96, 98⟩]).cfg.smartlockId 7
          (mkWindow gStd (minArrivalFirst ⟨100, 102⟩ [⟨96, 98⟩]).arrival
            (minArrivalFirst ⟨100, 102⟩ [⟨96, 98⟩]).departure).1
          (mkWindow gStd (minArrivalFirst ⟨100, 102⟩ [⟨96, 98⟩]).arrival
            (minArrivalFirst ⟨100, 102⟩ [⟨96, 98⟩]).departure).2] ∧
      (pre = [] ∨ pre =
        [WriteCall.clearWindow
          (unitWith (entryAt 8341200 8499600) [⟨100, 102⟩, ⟨96, 98⟩]).cfg.smartlockId 7])) ∧
    (processUnit gStd 90 (unitWith (entryAt 8341200 8499600) [⟨100, 102⟩, ⟨96, 98⟩])).writes =
      [WriteCall.clearWindow 1 7, WriteCall.updateWindow 1 7 8341200 8499600] :=
  ⟨rfl, by decide, by decide, by decide, by decide, by decide,
    (C8_unconditional_future_update gStd 90
      (unitWith (entryAt 8341200 8499600) [⟨100, 102⟩, ⟨96, 98⟩]) [⟨100, 102⟩, ⟨96, 98⟩]
      (entryAt 8341200 8499600) 7 ⟨100, 102⟩ [⟨96, 98⟩]
      rfl rfl (by decide) (by decide) (by decide) (by decide)).2,
    by decide⟩

/-- C10 (implicit): a missing, empty/whitespace-only, or non-parseable window
string on the lock's entry parses to none instead of raising; consequently a
malformed present `from` bound compares unequal to any present desired bound
and forces an update in the stay branch, and in the no-stay branch an entry
whose both bounds are malformed is treated as already disabled (no clear call,
the "war bereits deaktiviert" line is produced). -/
theorem C10_malformed_bounds (g : GCfg) (today : Int) (u u2 : UnitState)
    (df df2 : List Booking) (e e2 : AuthEntry) (aid aid2 dFrom dUntil : Int) (s : String)
    (hf : u.fetch = .ok df) (hfa : u.authListFault = none)
    (hfind : find_auth_by_name u.auths u.cfg.authName = some e)
    (hid : e.authId = some aid)
    (hiv : next_stay_interval_today g df today = some (dFrom, dUntil))
    (hbad : e.allowedFromDate = some s)
    (hbadparse : parse_nuki_iso_utc_naive (some s) = none)
    (hf2 : u2.fetch = .ok df2) (hfa2 : u2.authListFault = none)
    (hfind2 : find_auth_by_name u2.auths u2.cfg.authName = some e2)
    (hid2 : e2.authId = some aid2)
    (hiv2 : next_stay_interval_today g df2 today = none)
    (hnf2 : next_future_interval g df2 today = none)
    (hpresent2f : e2.allowedFromDate ≠ none) (hpresent2u : e2.allowedUntilDate ≠ none)
    (hbad2f : parse_nuki_iso_utc_naive e2.allowedFromDate = none)
    (hbad2u : parse_nuki_iso_utc_naive e2.allowedUntilDate = none) :
    parse_nuki_iso_utc_naive none = none ∧
    (∀ s0 : String, trimChars s0.data = [] → parse_nuki_iso_utc_naive (some s0) = none) ∧
    (∀ s0 : String, fromiso (stripZ (trimChars s0.data)) = none →
      parse_nuki_iso_utc_naive (some s0) = none) ∧
    (processUnit g today u).writes =
      [WriteCall.updateWindow u.cfg.smartlockId aid dFrom dUntil] ∧
    (processUnit g today u2).writes = [] ∧
    Line.ok (u2.cfg.name ++ ": Kein Aufenthalt heute - Code war bereits deaktiviert") ∈
      (processUnit g today u2).lines := by
  refine ⟨rfl, ?_, ?_, ?_, ?_, ?_⟩
  · intro s0 h
    unfold parse_nuki_iso_utc_naive
    try dsimp only
    rw [h]
    simp
  · intro s0 h
    unfold parse_nuki_iso_utc_naive
    try dsimp only
    cases htr : trimChars s0.data with
    | nil => simp
    | cons c cs =>
        rw [htr] at h
        rw [if_neg (by simp : ¬((c :: cs : List Char).isEmpty = true))]
        exact h
  · rw [processUnit_stay_eq g today u df e aid dFrom dUntil hf hfa hfind hid hiv, hbad,
      hbadparse]
    have hc : (times_equal none (some dFrom) 60 &&
        times_equal (parse_nuki_iso_utc_naive e.allowedUntilDate) (some dUntil) 60) = false := by
      rfl
    rw [hc]
    rfl
  · rw [processUnit_vacant_eq g today u2 df2 e2 aid2 hf2 hfa2 hfind2 hid2 hiv2]
    try dsimp only
    rw [hnf2, hbad2f, hbad2u]
    rfl
  · rw [processUnit_vacant_eq g today u2 df2 e2 aid2 hf2 hfa2 hfind2 hid2 hiv2]
    try dsimp only
    rw [hnf2, hbad2f, hbad2u]
    try dsimp only
    simp

/-- Witness for C10: the raw bound strings "banana" and whitespace both parse
to none; a stay-branch unit with those bounds gets the update, and a vacant
unit with them is treated as already disabled. -/
theorem C10_malformed_bounds_witness :
    parse_nuki_iso_utc_naive (some "banana") = none ∧
    parse_nuki_iso_utc_naive (some "  ") = none ∧
    parse_nuki_iso_utc_naive (some "2025-13-99T99:99:99") = none ∧
    entryBad.allowedFromDate = some "banana" ∧
    next_stay_interval_today gStd [⟨89, 95⟩] 90 = some (7736400, 8240400) ∧
    (processUnit gStd 90 (unitWith entryBad [⟨89, 95⟩])).writes =
      [WriteCall.updateWindow (unitWith entryBad [⟨89, 95⟩]).cfg.smartlockId 7 7736400
        8240400] ∧
    (processUnit gStd 90 (unitWith entryBad [⟨50, 60⟩])).writes = [] ∧
    Line.ok ((unitWith entryBad [⟨50, 60⟩]).cfg.name ++
        ": Kein Aufenthalt heute - Code war bereits deaktiviert") ∈
      (processUnit gStd 90 (unitWith entryBad [⟨50, 60⟩])).lines :=
  ⟨by decide, by decide, by decide, rfl, by decide,
    (C10_malformed_bounds gStd 90 (unitWith entryBad [⟨89, 95⟩]) (unitWith entryBad [⟨50, 60⟩])
      [⟨89, 95⟩] [⟨50, 60⟩] entryBad entryBad 7 7 7736400 8240400 "banana"
      rfl rfl (by decide) (by decide) (by decide) rfl (by decide)
      rfl rfl (by decide) (by decide) (by decide) (by decide)
      (by decide) (by decide) (by decide) (by decide)).2.2.2.1,
    (C10_malformed_bounds gStd 90 (unitWith entryBad [⟨89, 95⟩]) (unitWith entryBad [⟨50, 60⟩])
      [⟨89, 95⟩] [⟨50, 60⟩] entryBad entryBad 7 7 7736400 8240400 "banana"
      rfl rfl (by decide) (by decide) (by decide) rfl (by decide)
      rfl rfl (by decide) (by decide) (by decide) (by decide)
      (by decide) (by decide) (by decide) (by decide)).2.2.2.2.1,
    (C10_malformed_bounds gStd 90 (unitWith entryBad [⟨89, 95⟩]) (unitWith entryBad [⟨50, 60⟩])
      [⟨89, 95⟩] [⟨50, 60⟩] entryBad entryBad 7 7 7736400 8240400 "banana"
      rfl rfl (by decide) (by decide) (by decide) rfl (by decide)
      rfl rfl (by decide) (by decide) (by decide) (by decide)
      (by decide) (by decide) (by decide) (by decide)).2.2.2.2.2⟩

/-- C7: when no entry with the unit's guest-code name exists on the lock: with
a provisioning PIN the entry is created with that PIN and the all-weekdays
recurrence (mask 127), the create being the first write; with no PIN the unit
fails with a configuration error — flagged, no write issued, lock untouched
(fatal to that unit only). -/
theorem C7_provisioning (g : GCfg) (today : Int) (u : UnitState) (df : List Booking)
    (hf : u.fetch = .ok df) (hfa : u.authListFault = none)
    (habsent : find_auth_by_name u.auths u.cfg.authName = none) :
    (∀ p, u.cfg.pin = some p →
      ∃ rest, (processUnit g today u).writes =
        WriteCall.createAuth u.cfg.smartlockId u.cfg.authName p 127 :: rest) ∧
    (u.cfg.pin = none →
      (processUnit g today u).errored = true ∧
      (processUnit g today u).writes = [] ∧
      (processUnit g today u).auths = u.auths ∧
      errCount (processUnit g today u).lines = 1) := by
  constructor
  · intro p hp
    have hens : ensure_auth u.cfg.smartlockId u.cfg.authName u.cfg.pin u.auths =
        .ok (({ name := u.cfg.authName
                typ := 13
                authId := some (freshAuthId u.auths)
                allowedFromDate := none
                allowedUntilDate := none } : AuthEntry),
          u.auths ++ [({ name := u.cfg.authName
                         typ := 13
                         authId := some (freshAuthId u.auths)
                         allowedFromDate := none
                         allowedUntilDate := none } : AuthEntry)],
          [WriteCall.createAuth u.cfg.smartlockId u.cfg.authName p 127]) := by
      unfold ensure_auth
      rw [habsent, hp]
    unfold processUnit
    rw [hf]
    try dsimp only
    rw [hfa]
    try dsimp only
    rw [hens]
    try dsimp only
    cases hiv : next_stay_interval_today g df today with
    | some iv =>
        obtain ⟨dFrom, dUntil⟩ := iv
        try dsimp only
        split_ifs <;> exact ⟨_, rfl⟩
    | none =>
        try dsimp only
        cases hnf : next_future_interval g df today with
        | none =>
            try dsimp only
            split_ifs <;> exact ⟨_, rfl⟩
        | some nf =>
            obtain ⟨nFrom, nUntil⟩ := nf
            try dsimp only
            split_ifs <;> exact ⟨_, rfl⟩
  · intro hp
    have hens : ensure_auth u.cfg.smartlockId u.cfg.authName u.cfg.pin u.auths =
        .error ("Auth '" ++ u.cfg.authName ++ "' nicht gefunden und kein PIN hinterlegt") := by
      unfold ensure_auth
      rw [habsent, hp]
    unfold processUnit
    rw [hf]
    try dsimp only
    rw [hfa]
    try dsimp only
    rw [hens]
    try dsimp only
    exact ⟨rfl, rfl, rfl, by
      simp [errCount_append, errCount_turnover, errCount_err, errCount_nil]⟩

/-- Witness for C7: a lock with an empty authorization list; with PIN 4711 the
first write is the create call with code 4711 and weekday mask 127; with no
PIN the unit errors with no write. -/
theorem C7_provisioning_witness :
    find_auth_by_name (⟨cfgB, .ok [⟨89, 95⟩], none, []⟩ : UnitState).auths
      (⟨cfgB, .ok [⟨89, 95⟩], none, []⟩ : UnitState).cfg.authName = none ∧
    (⟨cfgB, .ok [⟨89, 95⟩], none, []⟩ : UnitState).cfg.pin = some 4711 ∧
    (∃ rest, (processUnit gStd 90 (⟨cfgB, .ok [⟨89, 95⟩], none, []⟩ : UnitState)).writes =
      WriteCall.createAuth 2 "guests" 4711 127 :: rest) ∧
    ((processUnit gStd 90 (⟨cfgA, .ok [⟨89, 95⟩], none, []⟩ : UnitState)).errored = true ∧
      (processUnit gStd 90 (⟨cfgA, .ok [⟨89, 95⟩], none, []⟩ : UnitState)).writes = [] ∧
      (processUnit gStd 90 (⟨cfgA, .ok [⟨89, 95⟩], none, []⟩ : UnitState)).auths = [] ∧
      errCount (processUnit gStd 90 (⟨cfgA, .ok [⟨89, 95⟩], none, []⟩ : UnitState)).lines = 1) :=
  ⟨by decide, by decide,
    (C7_provisioning gStd 90 (⟨cfgB, .ok [⟨89, 95⟩], none, []⟩ : UnitState) [⟨89, 95⟩]
      rfl rfl (by decide)).1 4711 (by decide),
    (C7_provisioning gStd 90 (⟨cfgA, .ok [⟨89, 95⟩], none, []⟩ : UnitState) [⟨89, 95⟩]
      rfl rfl (by decide)).2 (by decide)⟩

/-- C2: a failure raised while processing one unit is caught at that unit's
boundary: the whole run is the per-unit outcomes concatenated in order (so
every subsequent unit is still processed and nothing propagates past the
runner), the failing unit contributes exactly one error line, and the overall
error flag is set. -/
theorem C2_unit_isolation (g : GCfg) (today : Int) (us vs : List UnitState) (u : UnitState)
    (herr : (processUnit g today u).errored = true) :
    (run_once g today (us ++ u :: vs)).hadError = true ∧
    (run_once g today (us ++ u :: vs)).summary =
      (run_once g today us).summary ++ (processUnit g today u).lines ++
        (run_once g today vs).summary ∧
    (run_once g today (us ++ u :: vs)).writes =
      (run_once g today us).writes ++ (processUnit g today u).writes ++
        (run_once g today vs).writes ∧
    (run_once g today (us ++ u :: vs)).states =
      (run_once g today us).states ++ (processUnit g today u).auths ::
        (run_once g today vs).states ∧
    errCount (processUnit g today u).lines = 1 := by
  have hcons : run_once g today (u :: vs) =
      ⟨(processUnit g today u).errored || (run_once g today vs).hadError,
        (processUnit g today u).lines ++ (run_once g today vs).summary,
        (processUnit g today u).writes ++ (run_once g today vs).writes,
        (processUnit g today u).auths :: (run_once g today vs).states⟩ := rfl
  refine ⟨?_, ?_, ?_, ?_, ?_⟩ <;>
    simp [run_once_append, hcons, herr, errCount_processUnit, List.append_assoc]

/-- Witness for C2: a two-unit run where the first unit's booking fetch throws
and the second reconciles normally — one error line for the first, the second
still processed, the overall flag set. -/
theorem C2_unit_isolation_witness :
    (processUnit gStd 90 unitFetchFail).errored = true ∧
    ((run_once gStd 90 ([] ++ unitFetchFail :: [unitStay])).hadError = true ∧
      (run_once gStd 90 ([] ++ unitFetchFail :: [unitStay])).summary =
        (run_once gStd 90 []).summary ++ (processUnit gStd 90 unitFetchFail).lines ++
          (run_once gStd 90 [unitStay]).summary ∧
      (run_once gStd 90 ([] ++ unitFetchFail :: [unitStay])).writes =
        (run_once gStd 90 []).writes ++ (processUnit gStd 90 unitFetchFail).writes ++
          (run_once gStd 90 [unitStay]).writes ∧
      (run_once gStd 90 ([] ++ unitFetchFail :: [unitStay])).states =
        (run_once gStd 90 []).states ++ (processUnit gStd 90 unitFetchFail).auths ::
          (run_once gStd 90 [unitStay]).states ∧
      errCount (processUnit gStd 90 unitFetchFail).lines = 1) :=
  ⟨by decide, C2_unit_isolation gStd 90 [] [unitStay] unitFetchFail (by decide)⟩

/-- C1 counterexample: a vacant unit with one future booking. The first run
pre-programs the future window; the second identical run (no calendar change,
no out-of-band change) issues a clear call AND re-issues the same update —
two write calls, not zero. -/
theorem C1_counterexample :
    (processUnit gStd 90 unitVacantFuture).writes =
      [WriteCall.updateWindow 1 7 8686800 8845200] ∧
    (processUnit gStd 90 (stepUnit gStd 90 unitVacantFuture)).writes =
      [WriteCall.clearWindow 1 7, WriteCall.updateWindow 1 7 8686800 8845200] :=
  ⟨by decide, by decide⟩

/-! ### Lemmas: the remaining `processUnit` paths, toward C1 -/

theorem ensure_auth_create (lockId : Int) (authName : String) (p : Int)
    (auths : List AuthEntry)
    (habsent : find_auth_by_name auths authName = none) :
    ensure_auth lockId authName (some p) auths =
      .ok (({ name := authName
              typ := 13
              authId := some (freshAuthId auths)
              allowedFromDate := none
              allowedUntilDate := none } : AuthEntry),
        auths ++ [({ name := authName
                     typ := 13
                     authId := some (freshAuthId auths)
                     allowedFromDate := none
                     allowedUntilDate := none } : AuthEntry)],
        [WriteCall.createAuth lockId authName p 127]) := by
  unfold ensure_auth
  rw [habsent]

theorem find_auth_append (l1 l2 : List AuthEntry) (nm : String) :
    find_auth_by_name (l1 ++ l2) nm =
      (find_auth_by_name l1 nm).or (find_auth_by_name l2 nm) := by
  unfold find_auth_by_name
  exact List.find?_append

theorem find_auth_self (nm : String) (e : AuthEntry) (he : e.name = nm) (ht : e.typ = 13) :
    find_auth_by_name [e] nm = some e := by
  unfold find_auth_by_name
  rw [List.find?_cons_of_pos]
  rw [ht, he]
  simp

theorem processUnit_fetch_error (g : GCfg) (today : Int) (u : UnitState) (e : String)
    (hf : u.fetch = .error e) :
    processUnit g today u = ⟨u.auths, [], [.err (u.cfg.name ++ ": " ++ e)], true⟩ := by
  unfold processUnit
  rw [hf]

theorem processUnit_fault (g : GCfg) (today : Int) (u : UnitState) (df : List Booking)
    (e : String) (hf : u.fetch = .ok df) (hfa : u.authListFault = some e) :
    processUnit g today u =
      ⟨u.auths, [],
        (if is_turnover_today df today then
          [Line.info (u.cfg.name ++ ": Turnover Day erkannt (Abreise und Anreise heute)")]
        else []) ++ [.err (u.cfg.name ++ ": " ++ e)], true⟩ := by
  unfold processUnit
  rw [hf]
  try dsimp only
  rw [hfa]

theorem processUnit_no_pin (g : GCfg) (today : Int) (u : UnitState) (df : List Booking)
    (hf : u.fetch = .ok df) (hfa : u.authListFault = none)
    (habsent : find_auth_by_name u.auths u.cfg.authName = none)
    (hpin : u.cfg.pin = none) :
    processUnit g today u =
      ⟨u.auths, [],
        (if is_turnover_today df today then
          [Line.info (u.cfg.name ++ ": Turnover Day erkannt (Abreise und Anreise heute)")]
        else []) ++
          [.err (u.cfg.name ++ ": " ++
            ("Auth '" ++ u.cfg.authName ++ "' nicht gefunden und kein PIN hinterlegt"))],
        true⟩ := by
  have hens : ensure_auth u.cfg.smartlockId u.cfg.authName u.cfg.pin u.auths =
      .error ("Auth '" ++ u.cfg.authName ++ "' nicht gefunden und kein PIN hinterlegt") := by
    unfold ensure_auth
    rw [habsent, hpin]
  unfold processUnit
  rw [hf]
  try dsimp only
  rw [hfa]
  try dsimp only
  rw [hens]

theorem processUnit_no_id (g : GCfg) (today : Int) (u : UnitState) (df : List Booking)
    (e : AuthEntry) (hf : u.fetch = .ok df) (hfa : u.authListFault = none)
    (hfind : find_auth_by_name u.auths u.cfg.authName = some e)
    (hid : e.authId = none) :
    processUnit g today u =
      ⟨u.auths, [],
        (if is_turnover_today df today then
          [Line.info (u.cfg.name ++ ": Turnover Day erkannt (Abreise und Anreise heute)")]
        else []) ++
          [.err (u.cfg.name ++ ": Keine authId fuer '" ++ u.cfg.authName ++ "'")],
        true⟩ := by
  unfold processUnit
  rw [hf]
  try dsimp only
  rw [hfa]
  try dsimp only
  rw [ensure_auth_found _ _ _ _ _ hfind]
  try dsimp only
  rw [hid]

theorem processUnit_ok_eq (g : GCfg) (today : Int) (u : UnitState) (df : List Booking)
    (entry : AuthEntry) (auths1 : List AuthEntry) (ws1 : List WriteCall) (aid : Int)
    (hf : u.fetch = .ok df) (hfa : u.authListFault = none)
    (hens : ensure_auth u.cfg.smartlockId u.cfg.authName u.cfg.pin u.auths =
      .ok (entry, auths1, ws1))
    (hid : entry.authId = some aid) :
    processUnit g today u =
      (let lines0 : List Line :=
        if is_turnover_today df today then
          [Line.info (u.cfg.name ++ ": Turnover Day erkannt (Abreise und Anreise heute)")]
        else []
      let cur := find_auth_by_name auths1 u.cfg.authName
      let curFrom := parse_nuki_iso_utc_naive (cur.bind (·.allowedFromDate))
      let curUntil := parse_nuki_iso_utc_naive (cur.bind (·.allowedUntilDate))
      match next_stay_interval_today g df today with
      | some (dFrom, dUntil) =>
          if times_equal curFrom (some dFrom) 60 && times_equal curUntil (some dUntil) 60 then
            ⟨auths1, ws1,
              lines0 ++
                [Line.ok (u.cfg.name ++ ": Code '" ++ u.cfg.authName ++ "' bereits korrekt")],
              false⟩
          else
            ⟨setWindowStr auths1 aid (some (nukiDateString dFrom)) (some (nukiDateString dUntil)),
              ws1 ++ [WriteCall.updateWindow u.cfg.smartlockId aid dFrom dUntil],
              lines0 ++
                [Line.ok (u.cfg.name ++ ": Code '" ++ u.cfg.authName ++ "' gesetzt")],
              false⟩
      | none =>
          let step1 : List AuthEntry × List WriteCall × List Line :=
            if curFrom.isSome || curUntil.isSome then
              (setWindowStr auths1 aid none none,
                ws1 ++ [WriteCall.clearWindow u.cfg.smartlockId aid],
                lines0 ++ [Line.ok (u.cfg.name ++ ": Kein Aufenthalt heute - Code deaktiviert")])
            else
              (auths1, ws1,
                lines0 ++
                  [Line.ok
                    (u.cfg.name ++ ": Kein Aufenthalt heute - Code war bereits deaktiviert")])
          match next_future_interval g df today with
          | none => ⟨step1.1, step1.2.1, step1.2.2, false⟩
          | some (nFrom, nUntil) =>
              ⟨setWindowStr step1.1 aid (some (nukiDateString nFrom))
                  (some (nukiDateString nUntil)),
                step1.2.1 ++ [WriteCall.updateWindow u.cfg.smartlockId aid nFrom nUntil],
                step1.2.2 ++ [Line.ok (u.cfg.name ++ ": Naechster Aufenthalt vorgeplant")],
                false⟩) := by
  unfold processUnit
  rw [hf]
  try dsimp only
  rw [hfa]
  try dsimp only
  rw [hens]
  try dsimp only
  rw [hid]
  try dsimp only
  try rfl

theorem c1_created (g : GCfg) (today : Int) (u : UnitState) (df : List Booking) (p : Int)
    (h : ∀ df0, u.fetch = .ok df0 →
      (∃ a b, next_stay_interval_today g df0 today = some (a, b) ∧ 0 ≤ a ∧ 0 ≤ b) ∨
        (next_stay_interval_today g df0 today = none ∧
          next_future_interval g df0 today = none))
    (hf : u.fetch = .ok df) (hfa : u.authListFault = none)
    (habsent : find_auth_by_name u.auths u.cfg.authName = none)
    (hpin : u.cfg.pin = some p) :
    (processUnit g today (stepUnit g today u)).writes = [] := by
  have hens : ensure_auth u.cfg.smartlockId u.cfg.authName u.cfg.pin u.auths =
      .ok ((⟨u.cfg.authName, 13, some (freshAuthId u.auths), none, none⟩ : AuthEntry),
        u.auths ++ [(⟨u.cfg.authName, 13, some (freshAuthId u.auths), none, none⟩ : AuthEntry)],
        [WriteCall.createAuth u.cfg.smartlockId u.cfg.authName p 127]) := by
    rw [hpin]
    exact ensure_auth_create u.cfg.smartlockId u.cfg.authName p u.auths habsent
  have hcur : find_auth_by_name
      (u.auths ++ [(⟨u.cfg.authName, 13, some (freshAuthId u.auths), none, none⟩ : AuthEntry)])
      u.cfg.authName =
      some ⟨u.cfg.authName, 13, some (freshAuthId u.auths), none, none⟩ := by
    rw [find_auth_append, habsent, find_auth_self _ _ rfl rfl]
    rfl
  have h1 := processUnit_ok_eq g today u df
    ⟨u.cfg.authName, 13, some (freshAuthId u.auths), none, none⟩
    (u.auths ++ [(⟨u.cfg.authName, 13, some (freshAuthId u.auths), none, none⟩ : AuthEntry)])
    [WriteCall.createAuth u.cfg.smartlockId u.cfg.authName p 127]
    (freshAuthId u.auths) hf hfa hens rfl
  try dsimp only at h1
  rw [hcur] at h1
  simp only [Option.bind] at h1
  try dsimp only at h1
  rcases h df hf with ⟨a, b, hiv, ha, hb⟩ | ⟨hiv, hnf⟩
  · rw [hiv] at h1
    try dsimp only at h1
    simp only [show (times_equal (parse_nuki_iso_utc_naive (none : Option String)) (some a) 60 &&
        times_equal (parse_nuki_iso_utc_naive (none : Option String)) (some b) 60) = false
        from rfl] at h1
    simp only [Bool.false_eq_true, if_false] at h1
    have hfind2 : find_auth_by_name (stepUnit g today u).auths u.cfg.authName =
        some ⟨u.cfg.authName, 13, some (freshAuthId u.auths),
          some (nukiDateString a), some (nukiDateString b)⟩ := by
      show find_auth_by_name (processUnit g today u).auths u.cfg.authName = _
      rw [h1]
      show find_auth_by_name (setWindowStr
        (u.auths ++ [(⟨u.cfg.authName, 13, some (freshAuthId u.auths), none, none⟩ : AuthEntry)])
        (freshAuthId u.auths) (some (nukiDateString a)) (some (nukiDateString b)))
        u.cfg.authName = _
      rw [find_auth_setWindow, hcur, Option.map_some']
      try dsimp only
      rw [if_pos (show ((some (freshAuthId u.auths) : Option Int) ==
        some (freshAuthId u.auths)) = true by simp)]
    have h2 := processUnit_stay_eq g today (stepUnit g today u) df
      ⟨u.cfg.authName, 13, some (freshAuthId u.auths),
        some (nukiDateString a), some (nukiDateString b)⟩
      (freshAuthId u.auths) a b hf hfa hfind2 rfl hiv
    try dsimp only at h2
    rw [parse_nukiDateString a ha, parse_nukiDateString b hb, times_equal_refl,
      times_equal_refl] at h2
    simp only [Bool.and_self, if_true] at h2
    rw [h2]
  · rw [hiv, hnf] at h1
    try dsimp only at h1
    simp only [show ((parse_nuki_iso_utc_naive (none : Option String)).isSome ||
        (parse_nuki_iso_utc_naive (none : Option String)).isSome) = false from rfl] at h1
    simp only [Bool.false_eq_true, if_false] at h1
    have hfind2 : find_auth_by_name (stepUnit g today u).auths u.cfg.authName =
        some ⟨u.cfg.authName, 13, some (freshAuthId u.auths), none, none⟩ := by
      show find_auth_by_name (processUnit g today u).auths u.cfg.authName = _
      rw [h1]
      exact hcur
    have h2 := processUnit_vacant_eq g today (stepUnit g today u) df
      ⟨u.cfg.authName, 13, some (freshAuthId u.auths), none, none⟩
      (freshAuthId u.auths) hf hfa hfind2 rfl hiv
    rw [hnf] at h2
    try dsimp only at h2
    simp only [show ((parse_nuki_iso_utc_naive (none : Option String)).isSome ||
        (parse_nuki_iso_utc_naive (none : Option String)).isSome) = false from rfl] at h2
    simp only [Bool.false_eq_true, if_false] at h2
    rw [h2]

theorem c1_found (g : GCfg) (today : Int) (u : UnitState) (df : List Booking)
    (e : AuthEntry) (aid : Int)
    (h : ∀ df0, u.fetch = .ok df0 →
      (∃ a b, next_stay_interval_today g df0 today = some (a, b) ∧ 0 ≤ a ∧ 0 ≤ b) ∨
        (next_stay_interval_today g df0 today = none ∧
          next_future_interval g df0 today = none))
    (hf : u.fetch = .ok df) (hfa : u.authListFault = none)
    (hfind : find_auth_by_name u.auths u.cfg.authName = some e)
    (hid : e.authId = some aid) :
    (processUnit g today (stepUnit g today u)).writes = [] := by
  rcases h df hf with ⟨a, b, hiv, ha, hb⟩ | ⟨hiv, hnf⟩
  · have h1 := processUnit_stay_eq g today u df e aid a b hf hfa hfind hid hiv
    cases hcond : (times_equal (parse_nuki_iso_utc_naive e.allowedFromDate) (some a) 60 &&
        times_equal (parse_nuki_iso_utc_naive e.allowedUntilDate) (some b) 60) with
    | true =>
        rw [hcond, if_pos rfl] at h1
        have hstep : stepUnit g today u = u := by
          unfold stepUnit
          rw [h1]
        rw [hstep, h1]
    | false =>
        rw [hcond, if_neg (by simp)] at h1
        have hfind2 : find_auth_by_name (stepUnit g today u).auths u.cfg.authName =
            some ⟨e.name, e.typ, e.authId, some (nukiDateString a), some (nukiDateString b)⟩ := by
          show find_auth_by_name (processUnit g today u).auths u.cfg.authName = _
          rw [h1]
          show find_auth_by_name
            (setWindowStr u.auths aid (some (nukiDateString a)) (some (nukiDateString b)))
            u.cfg.authName = _
          rw [find_auth_setWindow, hfind, Option.map_some']
          rw [if_pos (show (e.authId == some aid) = true by rw [hid]; simp)]
        have h2 := processUnit_stay_eq g today (stepUnit g today u) df
          ⟨e.name, e.typ, e.authId, some (nukiDateString a), some (nukiDateString b)⟩ aid a b
          hf hfa hfind2 hid hiv
        try dsimp only at h2
        rw [parse_nukiDateString a ha, parse_nukiDateString b hb, times_equal_refl,
          times_equal_refl] at h2
        simp only [Bool.and_self, if_true] at h2
        rw [h2]
  · have h1 := processUnit_vacant_eq g today u df e aid hf hfa hfind hid hiv
    rw [hnf] at h1
    try dsimp only at h1
    cases hcond : ((parse_nuki_iso_utc_naive e.allowedFromDate).isSome ||
        (parse_nuki_iso_utc_naive e.allowedUntilDate).isSome) with
    | true =>
        rw [hcond, if_pos rfl] at h1
        try dsimp only at h1
        have hfind2 : find_auth_by_name (stepUnit g today u).auths u.cfg.authName =
            some ⟨e.name, e.typ, e.authId, none, none⟩ := by
          show find_auth_by_name (processUnit g today u).auths u.cfg.authName = _
          rw [h1]
          show find_auth_by_name (setWindowStr u.auths aid none none) u.cfg.authName = _
          rw [find_auth_setWindow, hfind, Option.map_some']
          rw [if_pos (show (e.authId == some aid) = true by rw [hid]; simp)]
        have h2 := processUnit_vacant_eq g today (stepUnit g today u) df
          ⟨e.name, e.typ, e.authId, none, none⟩ aid hf hfa hfind2 hid hiv
        rw [hnf] at h2
        try dsimp only at h2
        rw [show ((parse_nuki_iso_utc_naive (none : Option String)).isSome ||
            (parse_nuki_iso_utc_naive (none : Option String)).isSome) = false from rfl] at h2
        simp only [Bool.false_eq_true, if_false] at h2
        rw [h2]
    | false =>
        rw [hcond, if_neg (by simp)] at h1
        try dsimp only at h1
        have hfind2 : find_auth_by_name (stepUnit g today u).auths u.cfg.authName = some e := by
          show find_auth_by_name (processUnit g today u).auths u.cfg.authName = some e
          rw [h1]
          exact hfind
        have h2 := processUnit_vacant_eq g today (stepUnit g today u) df e aid
          hf hfa hfind2 hid hiv
        rw [hnf] at h2
        try dsimp only at h2
        rw [hcond, if_neg (by simp)] at h2
        rw [h2]

/-- C1 (amended): per-unit idempotence holds whenever the unit resolves to a
current stay (with window bounds at/after the 2000-03-01 epoch of the model)
or to no current-and-no-future booking, and in every failure path: the second
of two identical runs (same calendar, same today, no out-of-band lock change)
issues zero write calls. It fails exactly in the vacant-with-future-booking
state (see the counterexample), where every run re-issues the pre-programming
update after clearing it. -/
theorem C1_amended_idempotence (g : GCfg) (today : Int) (u : UnitState)
    (h : ∀ df, u.fetch = .ok df →
      (∃ a b, next_stay_interval_today g df today = some (a, b) ∧ 0 ≤ a ∧ 0 ≤ b) ∨
        (next_stay_interval_today g df today = none ∧
          next_future_interval g df today = none)) :
    (processUnit g today (stepUnit g today u)).writes = [] := by
  cases hf : u.fetch with
  | error e =>
      rw [processUnit_fetch_error g today (stepUnit g today u) e hf]
  | ok df =>
      cases hfa : u.authListFault with
      | some e2 =>
          rw [processUnit_fault g today (stepUnit g today u) df e2 hf hfa]
      | none =>
          cases hfind : find_auth_by_name u.auths u.cfg.authName with
          | none =>
              cases hpin : u.cfg.pin with
              | none =>
                  have h1 := processUnit_no_pin g today u df hf hfa hfind hpin
                  have hfind2 : find_auth_by_name (stepUnit g today u).auths
                      (stepUnit g today u).cfg.authName = none := by
                    show find_auth_by_name (processUnit g today u).auths u.cfg.authName = none
                    rw [h1]
                    exact hfind
                  rw [processUnit_no_pin g today (stepUnit g today u) df hf hfa hfind2 hpin]
              | some p => exact c1_created g today u df p h hf hfa hfind hpin
          | some e =>
              cases hid : e.authId with
              | none =>
                  have h1 := processUnit_no_id g today u df e hf hfa hfind hid
                  have hfind2 : find_auth_by_name (stepUnit g today u).auths
                      (stepUnit g today u).cfg.authName = some e := by
                    show find_auth_by_name (processUnit g today u).auths u.cfg.authName = some e
                    rw [h1]
                    exact hfind
                  rw [processUnit_no_id g today (stepUnit g today u) df e hf hfa hfind2 hid]
              | some aid => exact c1_found g today u df e aid h hf hfa hfind hid

/-- Witness for C1 (amended): a unit currently in a stay — the second of two
identical runs issues zero write calls. -/
theorem C1_amended_idempotence_witness :
    (∀ df, unitStay.fetch = .ok df →
      (∃ a b, next_stay_interval_today gStd df 90 = some (a, b) ∧ 0 ≤ a ∧ 0 ≤ b) ∨
        (next_stay_interval_today gStd df 90 = none ∧
          next_future_interval gStd df 90 = none)) ∧
    (processUnit gStd 90 (stepUnit gStd 90 unitStay)).writes = [] := by
  have hh : ∀ df, unitStay.fetch = .ok df →
      (∃ a b, next_stay_interval_today gStd df 90 = some (a, b) ∧ 0 ≤ a ∧ 0 ≤ b) ∨
        (next_stay_interval_today gStd df 90 = none ∧
          next_future_interval gStd df 90 = none) := by
    intro df hdf
    injection hdf with hdf2
    subst hdf2
    exact Or.inl ⟨7736400, 8240400, by decide, by decide, by decide⟩
  exact ⟨hh, C1_amended_idempotence gStd 90 unitStay hh⟩

end Nuki
